import Mathlib

/-!
The importer of goshield/aws-dynamodb-migrations and its attribute-value converter.

A shallow embedding of `convertDynamoDBAttributeValue` and its two recursive
helpers (`src/importer.go`), which turn a dynamically typed Go value
(`interface{}`) into a `dynamodb.AttributeValue`, and of the steps of `Import`
(`deleteTableIfExists`, `createTable`, `seedTable`) over the schema types of
`src/schema.go`.

Conventions of the embedding:

* a Go result `(*dynamodb.AttributeValue, error)` is an `Except String _`:
  `Except.error msg` is the pair `(nil, err)` with `err.Error() = msg`, and
  `Except.ok a` is `(a, nil)`; every error return of the source returns `nil`
  as its value;
* `fmt.Sprintf("%v", f)` on a floating-point value belongs to Go's standard
  library, so its rendering is a parameter `fmtV` of the converter;
* a Go map is an association list in the order in which `range` visits its
  entries; that order is chosen by the runtime, so statements about maps
  quantify over every such list.
* the database service is a function from the requests sent so far and the
  next request to the error it answers with; a step of the importer takes the
  list of requests sent so far and returns it extended, so the requests a step
  sends can be read off its result.
-/

namespace Migrations

/-! ## Go values seen through `interface{}` -/

/-- The enumeration `reflect.Kind` of Go's standard library. -/
inductive Kind
  | Invalid | Bool
  | Int | Int8 | Int16 | Int32 | Int64
  | Uint | Uint8 | Uint16 | Uint32 | Uint64 | Uintptr
  | Float32 | Float64 | Complex64 | Complex128
  | Array | Chan | Func | Interface | Map | Ptr | Slice | String | Struct
  | UnsafePointer
  deriving DecidableEq

/-- The method `String` of `reflect.Kind`: the name of a kind, as `%s` prints it. -/
def kindString : Kind → String
  | .Invalid => "invalid"
  | .Bool => "bool"
  | .Int => "int"
  | .Int8 => "int8"
  | .Int16 => "int16"
  | .Int32 => "int32"
  | .Int64 => "int64"
  | .Uint => "uint"
  | .Uint8 => "uint8"
  | .Uint16 => "uint16"
  | .Uint32 => "uint32"
  | .Uint64 => "uint64"
  | .Uintptr => "uintptr"
  | .Float32 => "float32"
  | .Float64 => "float64"
  | .Complex64 => "complex64"
  | .Complex128 => "complex128"
  | .Array => "array"
  | .Chan => "chan"
  | .Func => "func"
  | .Interface => "interface"
  | .Map => "map"
  | .Ptr => "ptr"
  | .Slice => "slice"
  | .String => "string"
  | .Struct => "struct"
  | .UnsafePointer => "unsafe.Pointer"

/-- Signed integer types of Go. -/
inductive IntKind
  | int | int8 | int16 | int32 | int64
  deriving DecidableEq

/-- Unsigned integer types of Go that the converter lists in its switch. -/
inductive UintKind
  | uint | uint8 | uint16 | uint32 | uint64
  deriving DecidableEq

/-- Floating-point types of Go. -/
inductive FloatKind
  | float32 | float64
  deriving DecidableEq

/-- The kinds a non-nil interface value can have besides bool, the listed
integer kinds, the floating-point kinds, string, slice and map. -/
inductive OtherKind
  | uintptr | complex64 | complex128 | array | chan | func | ptr | struct
  | unsafePointer
  deriving DecidableEq

/-- A value held in a Go `interface{}`.  Payloads the converter never reads
(the elements of a slice that is not a `[]interface{}`, the entries of a map
that is not a `map[string]interface{}`, the content of a value of any other
kind) are left out.  A float is given by its IEEE-754 bit pattern.  The
constructors `bool`, `int`, `uint`, `float` and `string` stand for values of
the predeclared types of those names. -/
inductive GoValue
  | nil
  | bool (b : Bool)
  | int (k : IntKind) (n : Int)
  | uint (k : UintKind) (n : Nat)
  | float (k : FloatKind) (bits : Nat)
  | string (s : String)
  | slice (items : List GoValue)
  | otherSlice
  | map (item : List (String × GoValue))
  | otherMap
  | other (k : OtherKind)

/-- The kind of a signed integer type. -/
def IntKind.toKind : IntKind → Kind
  | .int => .Int
  | .int8 => .Int8
  | .int16 => .Int16
  | .int32 => .Int32
  | .int64 => .Int64

/-- The kind of an unsigned integer type. -/
def UintKind.toKind : UintKind → Kind
  | .uint => .Uint
  | .uint8 => .Uint8
  | .uint16 => .Uint16
  | .uint32 => .Uint32
  | .uint64 => .Uint64

/-- The kind of a floating-point type. -/
def FloatKind.toKind : FloatKind → Kind
  | .float32 => .Float32
  | .float64 => .Float64

/-- The kind of the remaining types. -/
def OtherKind.toKind : OtherKind → Kind
  | .uintptr => .Uintptr
  | .complex64 => .Complex64
  | .complex128 => .Complex128
  | .array => .Array
  | .chan => .Chan
  | .func => .Func
  | .ptr => .Ptr
  | .struct => .Struct
  | .unsafePointer => .UnsafePointer

/-- The expression `reflect.TypeOf(v).Kind()`.  For the nil interface
`reflect.TypeOf` returns nil and there is no kind. -/
def GoValue.kind : GoValue → Option Kind
  | .nil => none
  | .bool _ => some .Bool
  | .int k _ => some k.toKind
  | .uint k _ => some k.toKind
  | .float k _ => some k.toKind
  | .string _ => some .String
  | .slice _ => some .Slice
  | .otherSlice => some .Slice
  | .map _ => some .Map
  | .otherMap => some .Map
  | .other k => some k.toKind

/-! ## `dynamodb.AttributeValue` -/

/-- The struct `dynamodb.AttributeValue` of the AWS SDK: ten optional fields,
`none` standing for a nil pointer, nil slice or nil map.  The field `M` is a
Go map, kept as an association list with distinct keys. -/
inductive AttributeValue
  | mk (B : Option (List Nat)) (BOOL : Option Bool)
      (BS : Option (List (List Nat))) (L : Option (List AttributeValue))
      (M : Option (List (String × AttributeValue))) (N : Option String)
      (NS : Option (List String)) (NULL : Option Bool) (S : Option String)
      (SS : Option (List String))

namespace AttributeValue

/-- The value `new(dynamodb.AttributeValue)`: no field is set. -/
def new : AttributeValue :=
  .mk none none none none none none none none none none

/-- Field `BOOL`. -/
def BOOL : AttributeValue → Option Bool
  | .mk _ b _ _ _ _ _ _ _ _ => b

/-- Field `L`. -/
def L : AttributeValue → Option (List AttributeValue)
  | .mk _ _ _ l _ _ _ _ _ _ => l

/-- Field `M`. -/
def M : AttributeValue → Option (List (String × AttributeValue))
  | .mk _ _ _ _ m _ _ _ _ _ => m

/-- Field `N`. -/
def N : AttributeValue → Option String
  | .mk _ _ _ _ _ n _ _ _ _ => n

/-- Field `NULL`. -/
def NULL : AttributeValue → Option Bool
  | .mk _ _ _ _ _ _ _ n _ _ => n

/-- Field `S`. -/
def S : AttributeValue → Option String
  | .mk _ _ _ _ _ _ _ _ s _ => s

/-- The setter `SetBOOL`. -/
def SetBOOL : AttributeValue → Bool → AttributeValue
  | .mk b _ bs l m n ns nl s ss, v => .mk b (some v) bs l m n ns nl s ss

/-- The setter `SetL`. -/
def SetL : AttributeValue → List AttributeValue → AttributeValue
  | .mk b bo bs _ m n ns nl s ss, v => .mk b bo bs (some v) m n ns nl s ss

/-- The setter `SetM`. -/
def SetM : AttributeValue → List (String × AttributeValue) → AttributeValue
  | .mk b bo bs l _ n ns nl s ss, v => .mk b bo bs l (some v) n ns nl s ss

/-- The setter `SetN`. -/
def SetN : AttributeValue → String → AttributeValue
  | .mk b bo bs l m _ ns nl s ss, v => .mk b bo bs l m (some v) ns nl s ss

/-- The setter `SetNULL`. -/
def SetNULL : AttributeValue → Bool → AttributeValue
  | .mk b bo bs l m n ns _ s ss, v => .mk b bo bs l m n ns (some v) s ss

/-- The setter `SetS`. -/
def SetS : AttributeValue → String → AttributeValue
  | .mk b bo bs l m n ns nl _ ss, v => .mk b bo bs l m n ns nl (some v) ss

end AttributeValue

/-! ## Go maps as association lists -/

/-- The map assignment `iv[k] = vv`: the entry of `k` is replaced when the key
is present, and added otherwise. -/
def mapSet {α : Type} : List (String × α) → String → α → List (String × α)
  | [], k, a => [(k, a)]
  | (k', a') :: rest, k, a =>
    if k' = k then (k, a) :: rest else (k', a') :: mapSet rest k a

/-- The map index expression `m[k]` with its presence flag. -/
def mapGet {α : Type} : List (String × α) → String → Option α
  | [], _ => none
  | (k', a') :: rest, k => if k' = k then some a' else mapGet rest k

/-- The keys of a map. -/
def mapKeys {α : Type} (m : List (String × α)) : List String :=
  m.map Prod.fst

/-! ## The converter -/

mutual

/-- The method `convertDynamoDBAttributeValue`.  The guard `v == nil || v == ""`
comes first; the switch on `reflect.TypeOf(v).Kind()` follows, one arm of the
match per case of the switch.  A Go switch does not fall through, so the two
integer cases, whose bodies are empty, leave the switch with `attr` untouched. -/
def convertDynamoDBAttributeValue (fmtV : FloatKind → Nat → String) :
    GoValue → Except String AttributeValue
  | .nil => .ok (AttributeValue.new.SetNULL true)
  | .string s =>
    if s = "" then .ok (AttributeValue.new.SetNULL true)
    else .ok (AttributeValue.new.SetS s)
  | .int _ _ => .ok AttributeValue.new
  | .uint _ _ => .ok AttributeValue.new
  | .float k bits => .ok (AttributeValue.new.SetN (fmtV k bits))
  | .bool b => .ok (AttributeValue.new.SetBOOL b)
  | .slice lt =>
    match convertListOfDynamoDBAttributeValue fmtV lt with
    | .error err => .error err
    | .ok lv => .ok (AttributeValue.new.SetL lv)
  | .otherSlice => .error "Expect value is []interface\x7b\x7d"
  | .map mp =>
    match convertMapOfDynamoDBAttributeValue fmtV [] mp with
    | .error err => .error err
    | .ok mv => .ok (AttributeValue.new.SetM mv)
  | .otherMap => .error "Expect value is map[string]interface\x7b\x7d"
  | .other k => .error ("(" ++ kindString k.toKind ++ ") is not a supporting type")

/-- The method `convertListOfDynamoDBAttributeValue`: the elements are
converted in index order, the first error ends the loop, and on success slot
`i` of the result holds the conversion of element `i`. -/
def convertListOfDynamoDBAttributeValue (fmtV : FloatKind → Nat → String) :
    List GoValue → Except String (List AttributeValue)
  | [] => .ok []
  | v :: rest =>
    match convertDynamoDBAttributeValue fmtV v with
    | .error err => .error err
    | .ok vv =>
      match convertListOfDynamoDBAttributeValue fmtV rest with
      | .error err => .error err
      | .ok list => .ok (vv :: list)

/-- The method `convertMapOfDynamoDBAttributeValue`: the loop over the entries
of `item`, with the map `iv` built so far as an accumulator (empty at the
call); the first error ends the loop. -/
def convertMapOfDynamoDBAttributeValue (fmtV : FloatKind → Nat → String)
    (iv : List (String × AttributeValue)) :
    List (String × GoValue) → Except String (List (String × AttributeValue))
  | [] => .ok iv
  | (k, v) :: rest =>
    match convertDynamoDBAttributeValue fmtV v with
    | .error err => .error err
    | .ok vv => convertMapOfDynamoDBAttributeValue fmtV (mapSet iv k vv) rest

end

/-! ## The kinds the switch lists, and trees with a node of another kind -/

/-- The case labels of the switch in `convertDynamoDBAttributeValue`. -/
def switchKinds : List Kind :=
  [.Int, .Int8, .Int16, .Int32, .Int64,
   .Uint, .Uint8, .Uint16, .Uint32, .Uint64,
   .Float32, .Float64, .String, .Bool, .Slice, .Map]

/-- A non-nil value whose kind is none of the case labels of the switch. -/
def unsupportedNode (v : GoValue) : Bool :=
  match v.kind with
  | none => false
  | some k => decide (k ∉ switchKinds)

mutual

/-- A tree of values has, at some depth inside `[]interface{}` slices and
`map[string]interface{}` maps, a node of a kind the switch does not list. -/
def hasUnsupportedNode : GoValue → Bool
  | .slice items => hasUnsupportedNodeList items
  | .map item => hasUnsupportedNodeMap item
  | v => unsupportedNode v

/-- Some element of the list has such a node. -/
def hasUnsupportedNodeList : List GoValue → Bool
  | [] => false
  | v :: rest => hasUnsupportedNode v || hasUnsupportedNodeList rest

/-- Some value of the map has such a node. -/
def hasUnsupportedNodeMap : List (String × GoValue) → Bool
  | [] => false
  | (_, v) :: rest => hasUnsupportedNode v || hasUnsupportedNodeMap rest

end

/-! ## The schema file (`src/schema.go`) -/

/-- The struct `provisionedThroughput`. -/
structure provisionedThroughput where
  ReadCapacityUnits : Int
  WriteCapacityUnits : Int

/-- The struct `column`; its field `Type` is written `Type_`. -/
structure column where
  Name : String
  Type_ : String
  Index : Bool
  Hash : Bool
  Range : Bool

/-- The struct `projection`; its field `Type` is written `Type_`.  `NonKeys` is
a `[]*string`: `none` is the nil slice, and an element `none` a nil pointer. -/
structure projection where
  Type_ : String
  NonKeys : Option (List (Option String))

/-- The element type of `jsonSchema.GlobalIndexes`. -/
structure globalIndex where
  Name : String
  ProvisionedThroughput : provisionedThroughput
  Projection : projection
  Keys : List column

/-- The element type of `jsonSchema.LocalIndexes`. -/
structure localIndex where
  Name : String
  Projection : projection
  Keys : List column

/-- The struct `jsonSchema`.  `Items` is a list of `map[string]interface{}`;
`ColumnTypes` is a Go map, `none` when nil. -/
structure jsonSchema where
  Table : String
  DropIfExists : Bool
  ProvisionedThroughput : provisionedThroughput
  Columns : List column
  GlobalIndexes : List globalIndex
  LocalIndexes : List localIndex
  Items : List (List (String × GoValue))
  ColumnTypes : Option (List (String × String))

/-! ## Request types of the AWS SDK -/

namespace dynamodb

/-- The struct `dynamodb.ProvisionedThroughput`. -/
structure ProvisionedThroughput where
  ReadCapacityUnits : Option Int
  WriteCapacityUnits : Option Int

/-- The struct `dynamodb.AttributeDefinition`. -/
structure AttributeDefinition where
  AttributeName : Option String
  AttributeType : Option String

/-- The struct `dynamodb.KeySchemaElement`. -/
structure KeySchemaElement where
  AttributeName : Option String
  KeyType : Option String

/-- The struct `dynamodb.Projection`. -/
structure Projection where
  NonKeyAttributes : Option (List (Option String))
  ProjectionType : Option String

/-- The struct `dynamodb.GlobalSecondaryIndex`. -/
structure GlobalSecondaryIndex where
  IndexName : Option String
  KeySchema : Option (List KeySchemaElement)
  Projection : Option dynamodb.Projection
  ProvisionedThroughput : Option dynamodb.ProvisionedThroughput

/-- The struct `dynamodb.LocalSecondaryIndex`. -/
structure LocalSecondaryIndex where
  IndexName : Option String
  KeySchema : Option (List KeySchemaElement)
  Projection : Option dynamodb.Projection

/-- The fields of `dynamodb.CreateTableInput` that `createTable` sets; the
struct's other fields keep their zero value. -/
structure CreateTableInput where
  AttributeDefinitions : Option (List AttributeDefinition)
  GlobalSecondaryIndexes : Option (List GlobalSecondaryIndex)
  KeySchema : Option (List KeySchemaElement)
  LocalSecondaryIndexes : Option (List LocalSecondaryIndex)
  ProvisionedThroughput : Option dynamodb.ProvisionedThroughput
  TableName : Option String

/-- The struct `dynamodb.PutItemInput`, with the two fields `seedTable` sets. -/
structure PutItemInput where
  Item : Option (List (String × AttributeValue))
  TableName : Option String

/-- The constant `dynamodb.KeyTypeHash`. -/
def KeyTypeHash : String := "HASH"

/-- The constant `dynamodb.KeyTypeRange`. -/
def KeyTypeRange : String := "RANGE"

end dynamodb

/-! ## The database service -/

/-- A request sent to the service through `m.svc`. -/
inductive Call
  | DescribeTable (TableName : String)
  | DeleteTable (TableName : String)
  | CreateTable (input : dynamodb.CreateTableInput)
  | PutItem (input : dynamodb.PutItemInput)

/-- The service behind `m.svc`: given the requests sent so far and the next
request, the error it answers with (`none` for a nil error).  The importer
reads nothing else of an answer. -/
def Service : Type := List Call → Call → Option String

/-- What a step of the importer leaves behind: its error (`none` for nil), the
schema behind the pointer it was given, and the requests sent so far. -/
structure Outcome where
  err : Option String
  schema : jsonSchema
  calls : List Call

/-! ## The importer (`src/importer.go`) -/

/-- The method `deleteTableIfExists`. -/
def deleteTableIfExists (svc : Service) (schema : jsonSchema) (calls : List Call) :
    Outcome :=
  if !schema.DropIfExists then
    ⟨none, schema, calls⟩
  else
    match svc calls (.DescribeTable schema.Table) with
    | some _ => ⟨none, schema, calls ++ [.DescribeTable schema.Table]⟩
    | none =>
      ⟨svc (calls ++ [.DescribeTable schema.Table]) (.DeleteTable schema.Table),
        schema,
        calls ++ [.DescribeTable schema.Table] ++ [.DeleteTable schema.Table]⟩

/-- The method `column.ToAttributeDefinition`. -/
def column.ToAttributeDefinition (c : column) : dynamodb.AttributeDefinition :=
  ⟨some c.Name, some c.Type_⟩

/-- The method `column.ToKeySchemaElement`. -/
def column.ToKeySchemaElement (c : column) : dynamodb.KeySchemaElement :=
  ⟨some c.Name,
    if c.Hash then some dynamodb.KeyTypeHash
    else if c.Range then some dynamodb.KeyTypeRange
    else none⟩

/-- The loop of `createTable` over `schema.Columns`, with the map
`schema.ColumnTypes` and the slices `attributes` and `keys` as accumulators. -/
def columnsLoop :
    List column → List (String × String) → List dynamodb.AttributeDefinition →
      List dynamodb.KeySchemaElement →
      List (String × String) × List dynamodb.AttributeDefinition ×
        List dynamodb.KeySchemaElement
  | [], types, attributes, keys => (types, attributes, keys)
  | c :: rest, types, attributes, keys =>
    columnsLoop rest (mapSet types c.Name c.Type_)
      (if c.Index then attributes ++ [c.ToAttributeDefinition] else attributes)
      (if c.Hash || c.Range then keys ++ [c.ToKeySchemaElement] else keys)

/-- The inner loop over the keys of an index: `keys` starts empty and every
column appends its key schema element. -/
def indexKeysLoop : List column → List dynamodb.KeySchemaElement →
    List dynamodb.KeySchemaElement
  | [], keys => keys
  | c :: rest, keys => indexKeysLoop rest (keys ++ [c.ToKeySchemaElement])

/-- The projection built for an index: the type is set, the non-key attributes
only when `NonKeys` is not nil. -/
def indexProjection (p : projection) : dynamodb.Projection :=
  ⟨match p.NonKeys with
    | some nonKeys => some nonKeys
    | none => none,
   some p.Type_⟩

/-- The loop of `createTable` in its block GLOBAL INDEXES, with `gbIndexes` as
accumulator.  The throughput pointers are taken as the values read in the
iteration. -/
def globalIndexesLoop : List globalIndex → List dynamodb.GlobalSecondaryIndex →
    Except String (List dynamodb.GlobalSecondaryIndex)
  | [], gbIndexes => .ok gbIndexes
  | gi :: rest, gbIndexes =>
    if gi.Name = "" then .error "name of GSI must be specified"
    else if gi.Projection.Type_ = "" then
      .error "projection's type of GSI must be specified"
    else
      globalIndexesLoop rest (gbIndexes ++ [
        { IndexName := some gi.Name
          ProvisionedThroughput := some
            ⟨some gi.ProvisionedThroughput.ReadCapacityUnits,
              some gi.ProvisionedThroughput.WriteCapacityUnits⟩
          Projection := some (indexProjection gi.Projection)
          KeySchema := some (indexKeysLoop gi.Keys []) }])

/-- The loop of `createTable` in its block LOCAL INDEXES, with `lcIndexes` as
accumulator.  The source ranges over `schema.GlobalIndexes` here, so the
elements are global indexes. -/
def localIndexesLoop : List globalIndex → List dynamodb.LocalSecondaryIndex →
    Except String (List dynamodb.LocalSecondaryIndex)
  | [], lcIndexes => .ok lcIndexes
  | li :: rest, lcIndexes =>
    if li.Name = "" then .error "name of LSI must be specified"
    else if li.Projection.Type_ = "" then
      .error "projection's type of LSI must be specified"
    else
      localIndexesLoop rest (lcIndexes ++ [
        { IndexName := some li.Name
          Projection := some (indexProjection li.Projection)
          KeySchema := some (indexKeysLoop li.Keys []) }])

/-- The request `in` that `createTable` has built when it reaches the call of
`CreateTable`, or the error it returns before. -/
def createTableInput (schema : jsonSchema) : Except String dynamodb.CreateTableInput :=
  let cols := columnsLoop schema.Columns [] [] []
  match (if schema.GlobalIndexes.length > 0 then
      (globalIndexesLoop schema.GlobalIndexes []).map some else .ok none) with
  | .error err => .error err
  | .ok gsi =>
    match (if schema.LocalIndexes.length > 0 then
        (localIndexesLoop schema.GlobalIndexes []).map some else .ok none) with
    | .error err => .error err
    | .ok lsi =>
      .ok { TableName := some schema.Table
            ProvisionedThroughput := some
              ⟨some schema.ProvisionedThroughput.ReadCapacityUnits,
                some schema.ProvisionedThroughput.WriteCapacityUnits⟩
            AttributeDefinitions := some cols.2.1
            KeySchema := some cols.2.2
            GlobalSecondaryIndexes := gsi
            LocalSecondaryIndexes := lsi }

/-- The method `createTable`.  `schema.ColumnTypes` is assigned before any
return, so every outcome carries it. -/
def createTable (svc : Service) (schema : jsonSchema) (calls : List Call) : Outcome :=
  let schema1 := { schema with
    ColumnTypes := some (columnsLoop schema.Columns [] [] []).1 }
  match createTableInput schema with
  | .error err => ⟨some err, schema1, calls⟩
  | .ok input => ⟨svc calls (.CreateTable input), schema1, calls ++ [.CreateTable input]⟩

/-- The loop of `seedTable` over `schema.Items`. -/
def seedTableLoop (svc : Service) (fmtV : FloatKind → Nat → String) (table : String) :
    List (List (String × GoValue)) → List Call → Option String × List Call
  | [], calls => (none, calls)
  | item :: rest, calls =>
    match convertMapOfDynamoDBAttributeValue fmtV [] item with
    | .error err => (some err, calls)
    | .ok iv =>
      match svc calls (.PutItem ⟨some iv, some table⟩) with
      | some err => (some err, calls ++ [.PutItem ⟨some iv, some table⟩])
      | none =>
        seedTableLoop svc fmtV table rest (calls ++ [.PutItem ⟨some iv, some table⟩])

/-- The method `seedTable`. -/
def seedTable (svc : Service) (fmtV : FloatKind → Nat → String) (schema : jsonSchema)
    (calls : List Call) : Outcome :=
  if schema.Items.length = 0 then
    ⟨none, schema, calls⟩
  else
    ⟨(seedTableLoop svc fmtV schema.Table schema.Items calls).1, schema,
      (seedTableLoop svc fmtV schema.Table schema.Items calls).2⟩

/-- The loop of `Import` over its slice `actions`: the first error ends it. -/
def actionsLoop : List (jsonSchema → List Call → Outcome) → jsonSchema → List Call →
    Outcome
  | [], schema, calls => ⟨none, schema, calls⟩
  | action :: rest, schema, calls =>
    match (action schema calls).err with
    | some err => ⟨some err, (action schema calls).schema, (action schema calls).calls⟩
    | none => actionsLoop rest (action schema calls).schema (action schema calls).calls

/-- The two library functions `Import` calls before it touches the service:
`ioutil.ReadFile`, and `json.Unmarshal` into a `jsonSchema`. -/
structure Files where
  ReadFile : String → Except String (List Nat)
  Unmarshal : List Nat → Except String jsonSchema

/-- The method `Import`: its error (`none` for nil) and the requests sent. -/
def Import (fs : Files) (svc : Service) (fmtV : FloatKind → Nat → String)
    (path : String) (calls : List Call) : Option String × List Call :=
  match fs.ReadFile path with
  | .error err => (some err, calls)
  | .ok data =>
    match fs.Unmarshal data with
    | .error err => (some err, calls)
    | .ok schema =>
      if schema.Table = "" then (some "table must be specified", calls)
      else
        let out := actionsLoop
          [deleteTableIfExists svc, createTable svc, seedTable svc fmtV] schema calls
        (out.err, out.calls)

/-! ## Well-formed attribute values and JSON-shaped values -/

/-- The number of the tags NULL, BOOL, N, S, L, M that an attribute value has
set. -/
def AttributeValue.tagCount : AttributeValue → Nat
  | .mk _ bo _ l m n _ nl s _ =>
    nl.isSome.toNat + bo.isSome.toNat + n.isSome.toNat + s.isSome.toNat +
      l.isSome.toNat + m.isSome.toNat

mutual

/-- An attribute value has exactly one of its six tags set, and so has every
attribute value inside its `L` or `M` payload, at any depth. -/
def oneTagEverywhere : AttributeValue → Bool
  | .mk _ bo _ l m n _ nl s _ =>
    decide (nl.isSome.toNat + bo.isSome.toNat + n.isSome.toNat + s.isSome.toNat +
      l.isSome.toNat + m.isSome.toNat = 1) &&
    oneTagEverywhereL l && oneTagEverywhereM m

/-- The payload `L`, when set, holds only such values. -/
def oneTagEverywhereL : Option (List AttributeValue) → Bool
  | none => true
  | some l => oneTagEverywhereList l

/-- The payload `M`, when set, holds only such values. -/
def oneTagEverywhereM : Option (List (String × AttributeValue)) → Bool
  | none => true
  | some m => oneTagEverywhereMap m

/-- Every element of the list is such a value. -/
def oneTagEverywhereList : List AttributeValue → Bool
  | [] => true
  | a :: rest => oneTagEverywhere a && oneTagEverywhereList rest

/-- Every value of the map is such a value. -/
def oneTagEverywhereMap : List (String × AttributeValue) → Bool
  | [] => true
  | (_, a) :: rest => oneTagEverywhere a && oneTagEverywhereMap rest

end

mutual

/-- A value built only from nil, bool, float64, string, `[]interface{}` and
`map[string]interface{}`: the shapes `json.Unmarshal` stores in an
`interface{}`. -/
def jsonShaped : GoValue → Bool
  | .nil => true
  | .bool _ => true
  | .float .float64 _ => true
  | .string _ => true
  | .slice items => jsonShapedList items
  | .map item => jsonShapedMap item
  | _ => false

/-- Every element of the list is JSON-shaped. -/
def jsonShapedList : List GoValue → Bool
  | [] => true
  | v :: rest => jsonShaped v && jsonShapedList rest

/-- Every value of the map is JSON-shaped. -/
def jsonShapedMap : List (String × GoValue) → Bool
  | [] => true
  | (_, v) :: rest => jsonShaped v && jsonShapedMap rest

end

mutual

/-- A tree of values has, at some depth, a node of one of the ten integer kinds
the switch lists. -/
def hasIntegerNode : GoValue → Bool
  | .int _ _ => true
  | .uint _ _ => true
  | .slice items => hasIntegerNodeList items
  | .map item => hasIntegerNodeMap item
  | _ => false

/-- Some element of the list has an integer node. -/
def hasIntegerNodeList : List GoValue → Bool
  | [] => false
  | v :: rest => hasIntegerNode v || hasIntegerNodeList rest

/-- Some value of the map has an integer node. -/
def hasIntegerNodeMap : List (String × GoValue) → Bool
  | [] => false
  | (_, v) :: rest => hasIntegerNode v || hasIntegerNodeMap rest

end

/-! ## Schemas used as concrete inputs -/

/-- The schema of a table "t" that declares nothing but the given items. -/
def itemsSchema (items : List (List (String × GoValue))) : jsonSchema :=
  ⟨"t", false, ⟨1, 1⟩, [], [], [], items, none⟩

/-- The schema of a table "t" with one hash key column "id" and the given
global and local indexes. -/
def indexesSchema (globalIndexes : List globalIndex) (localIndexes : List localIndex) :
    jsonSchema :=
  ⟨"t", false, ⟨1, 1⟩, [⟨"id", "S", true, true, false⟩], globalIndexes, localIndexes,
    [], none⟩

/-! ## Lemmas on the association lists -/

theorem mapGet_mapSet_same {α : Type} (m : List (String × α)) (k : String) (a : α) :
    mapGet (mapSet m k a) k = some a := by
  induction m with
  | nil => simp [mapSet, mapGet]
  | cons p rest ih =>
    obtain ⟨k', a'⟩ := p
    by_cases h : k' = k
    · simp [mapSet, mapGet, h]
    · simp [mapSet, mapGet, h, ih]

theorem mapGet_mapSet_other {α : Type} (m : List (String × α)) (k k' : String) (a : α)
    (h : k ≠ k') : mapGet (mapSet m k a) k' = mapGet m k' := by
  induction m with
  | nil => simp [mapSet, mapGet, h]
  | cons p rest ih =>
    obtain ⟨k0, a0⟩ := p
    by_cases h0 : k0 = k
    · subst h0
      simp [mapSet, mapGet, h]
    · by_cases h1 : k0 = k'
      · subst h1
        simp [mapSet, mapGet, h0]
      · simp [mapSet, mapGet, h0, h1, ih]

theorem mem_mapKeys_mapSet {α : Type} (m : List (String × α)) (k x : String) (a : α) :
    x ∈ mapKeys (mapSet m k a) ↔ x = k ∨ x ∈ mapKeys m := by
  induction m with
  | nil => simp [mapSet, mapKeys]
  | cons p rest ih =>
    obtain ⟨k0, a0⟩ := p
    by_cases h0 : k0 = k
    · subst h0
      simp [mapSet, mapKeys]
    · have ih' : x ∈ List.map Prod.fst (mapSet rest k a) ↔
          x = k ∨ x ∈ List.map Prod.fst rest := ih
      simp only [mapSet, mapKeys, h0, if_false, List.map_cons, List.mem_cons, ih']
      tauto

theorem mapSet_nodup {α : Type} (m : List (String × α)) (k : String) (a : α)
    (h : (mapKeys m).Nodup) : (mapKeys (mapSet m k a)).Nodup := by
  induction m with
  | nil => simp [mapSet, mapKeys]
  | cons p rest ih =>
    obtain ⟨k0, a0⟩ := p
    have hn : k0 ∉ mapKeys rest ∧ (mapKeys rest).Nodup := by
      simpa [mapKeys] using h
    by_cases h0 : k0 = k
    · subst h0
      simpa [mapSet, mapKeys] using h
    · have h1 : k0 ∉ mapKeys (mapSet rest k a) := by
        rw [mem_mapKeys_mapSet]
        rintro (h2 | h2)
        · exact h0 h2
        · exact hn.1 h2
      have h2 := ih hn.2
      simp only [mapSet, h0, if_false, mapKeys, List.map_cons, List.nodup_cons]
      exact ⟨h1, h2⟩

theorem mapGet_of_mem {α : Type} (m : List (String × α)) (k : String) (a : α)
    (h : mapGet m k = some a) : (k, a) ∈ m := by
  induction m with
  | nil => simp [mapGet] at h
  | cons p rest ih =>
    obtain ⟨k0, a0⟩ := p
    by_cases h0 : k0 = k
    · subst h0
      simp [mapGet] at h
      simp [h]
    · simp [mapGet, h0] at h
      exact List.mem_cons_of_mem _ (ih h)

/-! ## Lemmas on the list loop -/

theorem convertList_ok_of_forall (fmtV : FloatKind → Nat → String) (L : List GoValue)
    (h : ∀ x ∈ L, ∃ a, convertDynamoDBAttributeValue fmtV x = .ok a) :
    ∃ lv, convertListOfDynamoDBAttributeValue fmtV L = .ok lv := by
  induction L with
  | nil => exact ⟨[], by simp [convertListOfDynamoDBAttributeValue]⟩
  | cons v rest ih =>
    obtain ⟨a, ha⟩ := h v (List.mem_cons_self _ _)
    obtain ⟨lv, hlv⟩ := ih (fun x hx => h x (List.mem_cons_of_mem _ hx))
    exact ⟨a :: lv, by simp [convertListOfDynamoDBAttributeValue, ha, hlv]⟩

theorem convertList_forall₂ (fmtV : FloatKind → Nat → String) (L : List GoValue) :
    ∀ lv, convertListOfDynamoDBAttributeValue fmtV L = .ok lv →
      List.Forall₂ (fun x a => convertDynamoDBAttributeValue fmtV x = .ok a) L lv := by
  induction L with
  | nil =>
    intro lv h
    simp [convertListOfDynamoDBAttributeValue] at h
    subst h
    exact List.Forall₂.nil
  | cons v rest ih =>
    intro lv h
    rw [convertListOfDynamoDBAttributeValue] at h
    cases hv : convertDynamoDBAttributeValue fmtV v with
    | error e => simp [hv] at h
    | ok a =>
      cases hr : convertListOfDynamoDBAttributeValue fmtV rest with
      | error e => simp [hv, hr] at h
      | ok l =>
        simp [hv, hr] at h
        subst h
        exact List.Forall₂.cons hv (ih l hr)

theorem convertList_first_error (fmtV : FloatKind → Nat → String) (L : List GoValue)
    (h : ∃ x ∈ L, ∃ e, convertDynamoDBAttributeValue fmtV x = .error e) :
    ∃ (i : Nat) (x : GoValue) (e : String),
      L[i]? = some x ∧ convertDynamoDBAttributeValue fmtV x = .error e ∧
      (∀ (j : Nat) (y : GoValue), j < i → L[j]? = some y →
        ∃ a, convertDynamoDBAttributeValue fmtV y = .ok a) ∧
      convertListOfDynamoDBAttributeValue fmtV L = .error e := by
  induction L with
  | nil =>
    obtain ⟨x, hx, _⟩ := h
    simp at hx
  | cons v rest ih =>
    cases hv : convertDynamoDBAttributeValue fmtV v with
    | error e =>
      refine ⟨0, v, e, by simp, hv, ?_, by simp [convertListOfDynamoDBAttributeValue, hv]⟩
      intro j y hj
      omega
    | ok a =>
      have h' : ∃ x ∈ rest, ∃ e, convertDynamoDBAttributeValue fmtV x = .error e := by
        obtain ⟨x, hx, e, he⟩ := h
        rcases List.mem_cons.mp hx with rfl | hx'
        · rw [hv] at he
          cases he
        · exact ⟨x, hx', e, he⟩
      obtain ⟨i, x, e, hix, hxe, hlt, hres⟩ := ih h'
      refine ⟨i + 1, x, e, by simpa using hix, hxe, ?_, ?_⟩
      · intro j y hj hy
        cases j with
        | zero =>
          simp at hy
          subst hy
          exact ⟨a, hv⟩
        | succ j =>
          exact hlt j y (by omega) (by simpa using hy)
      · simp [convertListOfDynamoDBAttributeValue, hv, hres]

/-! ## Lemmas on the map loop -/

theorem convertMap_ok_of_forall (fmtV : FloatKind → Nat → String)
    (M : List (String × GoValue)) :
    ∀ iv, (∀ p ∈ M, ∃ a, convertDynamoDBAttributeValue fmtV p.2 = .ok a) →
      ∃ mv, convertMapOfDynamoDBAttributeValue fmtV iv M = .ok mv := by
  induction M with
  | nil => exact fun iv _ => ⟨iv, by simp [convertMapOfDynamoDBAttributeValue]⟩
  | cons p rest ih =>
    intro iv h
    obtain ⟨k, v⟩ := p
    obtain ⟨a, ha⟩ := h (k, v) (List.mem_cons_self _ _)
    obtain ⟨mv, hmv⟩ := ih (mapSet iv k a) (fun q hq => h q (List.mem_cons_of_mem _ hq))
    exact ⟨mv, by simp [convertMapOfDynamoDBAttributeValue, ha, hmv]⟩

theorem convertMap_cons_ok (fmtV : FloatKind → Nat → String)
    (iv : List (String × AttributeValue)) (k : String) (v : GoValue)
    (rest : List (String × GoValue)) (mv : List (String × AttributeValue))
    (h : convertMapOfDynamoDBAttributeValue fmtV iv ((k, v) :: rest) = .ok mv) :
    ∃ a, convertDynamoDBAttributeValue fmtV v = .ok a ∧
      convertMapOfDynamoDBAttributeValue fmtV (mapSet iv k a) rest = .ok mv := by
  rw [convertMapOfDynamoDBAttributeValue] at h
  cases hv : convertDynamoDBAttributeValue fmtV v with
  | error e => simp [hv] at h
  | ok a => exact ⟨a, rfl, by simpa [hv] using h⟩

theorem convertMap_get_notin (fmtV : FloatKind → Nat → String)
    (M : List (String × GoValue)) :
    ∀ iv mv k, convertMapOfDynamoDBAttributeValue fmtV iv M = .ok mv →
      k ∉ mapKeys M → mapGet mv k = mapGet iv k := by
  induction M with
  | nil =>
    intro iv mv k h _
    simp [convertMapOfDynamoDBAttributeValue] at h
    rw [h]
  | cons p rest ih =>
    intro iv mv k h hk
    obtain ⟨k0, v0⟩ := p
    obtain ⟨a, _, hrest⟩ := convertMap_cons_ok fmtV iv k0 v0 rest mv h
    have hk' : k0 ≠ k ∧ k ∉ mapKeys rest := by
      simp [mapKeys] at hk
      exact ⟨fun h0 => hk.1 h0.symm, by simpa [mapKeys] using hk.2⟩
    rw [ih (mapSet iv k0 a) mv k hrest hk'.2, mapGet_mapSet_other iv k0 k a hk'.1]

theorem convertMap_keys (fmtV : FloatKind → Nat → String)
    (M : List (String × GoValue)) :
    ∀ iv mv, convertMapOfDynamoDBAttributeValue fmtV iv M = .ok mv →
      ∀ x, x ∈ mapKeys mv ↔ x ∈ mapKeys iv ∨ x ∈ mapKeys M := by
  induction M with
  | nil =>
    intro iv mv h x
    simp [convertMapOfDynamoDBAttributeValue] at h
    simp [h, mapKeys]
  | cons p rest ih =>
    intro iv mv h x
    obtain ⟨k0, v0⟩ := p
    obtain ⟨a, _, hrest⟩ := convertMap_cons_ok fmtV iv k0 v0 rest mv h
    rw [ih (mapSet iv k0 a) mv hrest x, mem_mapKeys_mapSet]
    have : x ∈ mapKeys ((k0, v0) :: rest) ↔ x = k0 ∨ x ∈ mapKeys rest := by
      simp [mapKeys]
    rw [this]
    tauto

theorem convertMap_nodup (fmtV : FloatKind → Nat → String)
    (M : List (String × GoValue)) :
    ∀ iv mv, convertMapOfDynamoDBAttributeValue fmtV iv M = .ok mv →
      (mapKeys iv).Nodup → (mapKeys mv).Nodup := by
  induction M with
  | nil =>
    intro iv mv h hn
    simp [convertMapOfDynamoDBAttributeValue] at h
    rw [← h]
    exact hn
  | cons p rest ih =>
    intro iv mv h hn
    obtain ⟨k0, v0⟩ := p
    obtain ⟨a, _, hrest⟩ := convertMap_cons_ok fmtV iv k0 v0 rest mv h
    exact ih (mapSet iv k0 a) mv hrest (mapSet_nodup iv k0 a hn)

theorem convertMap_get_mem (fmtV : FloatKind → Nat → String)
    (M : List (String × GoValue)) :
    ∀ iv mv, (mapKeys M).Nodup → convertMapOfDynamoDBAttributeValue fmtV iv M = .ok mv →
      ∀ k v, (k, v) ∈ M →
        ∃ a, mapGet mv k = some a ∧ convertDynamoDBAttributeValue fmtV v = .ok a := by
  induction M with
  | nil =>
    intro iv mv _ _ k v hkv
    simp at hkv
  | cons p rest ih =>
    intro iv mv hn h k v hkv
    obtain ⟨k0, v0⟩ := p
    obtain ⟨a, ha, hrest⟩ := convertMap_cons_ok fmtV iv k0 v0 rest mv h
    have hn' : k0 ∉ mapKeys rest ∧ (mapKeys rest).Nodup := by
      simpa [mapKeys] using hn
    rcases List.mem_cons.mp hkv with heq | hmem
    · cases heq
      refine ⟨a, ?_, ha⟩
      rw [convertMap_get_notin fmtV rest (mapSet iv k a) mv k hrest hn'.1,
        mapGet_mapSet_same]
    · exact ih (mapSet iv k0 a) mv hn'.2 hrest k v hmem

theorem convertMap_error (fmtV : FloatKind → Nat → String)
    (M : List (String × GoValue)) :
    ∀ iv, (∃ p ∈ M, ∃ e, convertDynamoDBAttributeValue fmtV p.2 = .error e) →
      ∃ p ∈ M, ∃ e, convertDynamoDBAttributeValue fmtV p.2 = .error e ∧
        convertMapOfDynamoDBAttributeValue fmtV iv M = .error e := by
  induction M with
  | nil =>
    intro iv h
    obtain ⟨p, hp, _⟩ := h
    simp at hp
  | cons q rest ih =>
    intro iv h
    obtain ⟨k0, v0⟩ := q
    cases hv : convertDynamoDBAttributeValue fmtV v0 with
    | error e =>
      exact ⟨(k0, v0), List.mem_cons_self _ _, e, hv,
        by simp [convertMapOfDynamoDBAttributeValue, hv]⟩
    | ok a =>
      have h' : ∃ p ∈ rest, ∃ e, convertDynamoDBAttributeValue fmtV p.2 = .error e := by
        obtain ⟨p, hp, e, he⟩ := h
        rcases List.mem_cons.mp hp with rfl | hp'
        · rw [hv] at he
          cases he
        · exact ⟨p, hp', e, he⟩
      obtain ⟨p, hp, e, hpe, hres⟩ := ih (mapSet iv k0 a) h'
      exact ⟨p, List.mem_cons_of_mem _ hp, e, hpe,
        by simp [convertMapOfDynamoDBAttributeValue, hv, hres]⟩

/-! ## A node of an unlisted kind fails the whole tree -/

mutual

theorem convert_error_of_hasUnsupportedNode (fmtV : FloatKind → Nat → String) :
    ∀ v, hasUnsupportedNode v = true →
      ∃ e, convertDynamoDBAttributeValue fmtV v = .error e
  | .nil, h => by simp [hasUnsupportedNode, unsupportedNode, GoValue.kind] at h
  | .bool _, h => by
    simp [hasUnsupportedNode, unsupportedNode, GoValue.kind, switchKinds] at h
  | .int k _, h => by
    cases k <;>
      simp [hasUnsupportedNode, unsupportedNode, GoValue.kind, switchKinds,
        IntKind.toKind] at h
  | .uint k _, h => by
    cases k <;>
      simp [hasUnsupportedNode, unsupportedNode, GoValue.kind, switchKinds,
        UintKind.toKind] at h
  | .float k _, h => by
    cases k <;>
      simp [hasUnsupportedNode, unsupportedNode, GoValue.kind, switchKinds,
        FloatKind.toKind] at h
  | .string _, h => by
    simp [hasUnsupportedNode, unsupportedNode, GoValue.kind, switchKinds] at h
  | .otherSlice, _ => ⟨_, rfl⟩
  | .otherMap, _ => ⟨_, rfl⟩
  | .other _, _ => ⟨_, rfl⟩
  | .slice items, h => by
    have h' : hasUnsupportedNodeList items = true := by
      simpa [hasUnsupportedNode] using h
    obtain ⟨e, he⟩ := convertList_error_of_hasUnsupportedNode fmtV items h'
    exact ⟨e, by simp [convertDynamoDBAttributeValue, he]⟩
  | .map item, h => by
    have h' : hasUnsupportedNodeMap item = true := by
      simpa [hasUnsupportedNode] using h
    obtain ⟨e, he⟩ := convertMap_error_of_hasUnsupportedNode fmtV item [] h'
    exact ⟨e, by simp [convertDynamoDBAttributeValue, he]⟩

theorem convertList_error_of_hasUnsupportedNode (fmtV : FloatKind → Nat → String) :
    ∀ L, hasUnsupportedNodeList L = true →
      ∃ e, convertListOfDynamoDBAttributeValue fmtV L = .error e
  | [], h => by simp [hasUnsupportedNodeList] at h
  | v :: rest, h => by
    cases hv : convertDynamoDBAttributeValue fmtV v with
    | error e => exact ⟨e, by simp [convertListOfDynamoDBAttributeValue, hv]⟩
    | ok a =>
      have hrest : hasUnsupportedNodeList rest = true := by
        cases hn : hasUnsupportedNode v with
        | true =>
          obtain ⟨e, he⟩ := convert_error_of_hasUnsupportedNode fmtV v hn
          rw [hv] at he
          cases he
        | false => simpa [hasUnsupportedNodeList, hn] using h
      obtain ⟨e, he⟩ := convertList_error_of_hasUnsupportedNode fmtV rest hrest
      exact ⟨e, by simp [convertListOfDynamoDBAttributeValue, hv, he]⟩

theorem convertMap_error_of_hasUnsupportedNode (fmtV : FloatKind → Nat → String) :
    ∀ (M : List (String × GoValue)) (iv : List (String × AttributeValue)),
      hasUnsupportedNodeMap M = true →
      ∃ e, convertMapOfDynamoDBAttributeValue fmtV iv M = .error e
  | [], _, h => by simp [hasUnsupportedNodeMap] at h
  | (k, v) :: rest, iv, h => by
    cases hv : convertDynamoDBAttributeValue fmtV v with
    | error e => exact ⟨e, by simp [convertMapOfDynamoDBAttributeValue, hv]⟩
    | ok a =>
      have hrest : hasUnsupportedNodeMap rest = true := by
        cases hn : hasUnsupportedNode v with
        | true =>
          obtain ⟨e, he⟩ := convert_error_of_hasUnsupportedNode fmtV v hn
          rw [hv] at he
          cases he
        | false => simpa [hasUnsupportedNodeMap, hn] using h
      obtain ⟨e, he⟩ :=
        convertMap_error_of_hasUnsupportedNode fmtV rest (mapSet iv k a) hrest
      exact ⟨e, by simp [convertMapOfDynamoDBAttributeValue, hv, he]⟩

end

/-! ## The claims -/

/-- C1: for a `[]interface{}` all of whose elements convert, the converter
succeeds with an attribute value in which only `L` is set; the payload has the
length of the input and its element at each index is the conversion of the
input element at that index. -/
theorem convert_slice_elementwise (fmtV : FloatKind → Nat → String) (L : List GoValue)
    (h : ∀ x ∈ L, ∃ a, convertDynamoDBAttributeValue fmtV x = .ok a) :
    ∃ lv : List AttributeValue,
      convertDynamoDBAttributeValue fmtV (.slice L) =
        .ok (.mk none none none (some lv) none none none none none none) ∧
      lv.length = L.length ∧
      ∀ (i : Nat) (x : GoValue), L[i]? = some x →
        ∃ a, lv[i]? = some a ∧ convertDynamoDBAttributeValue fmtV x = .ok a := by
  obtain ⟨lv, hlv⟩ := convertList_ok_of_forall fmtV L h
  have hf := convertList_forall₂ fmtV L lv hlv
  refine ⟨lv, ?_, hf.length_eq.symm, ?_⟩
  · simp [convertDynamoDBAttributeValue, hlv, AttributeValue.new, AttributeValue.SetL]
  · intro i x hx
    have hi : i < L.length := by
      rcases Nat.lt_or_ge i L.length with hlt | hge
      · exact hlt
      · rw [List.getElem?_eq_none hge] at hx
        cases hx
    have hj : i < lv.length := by rw [← hf.length_eq]; exact hi
    have hx' : L[i] = x := by
      rw [List.getElem?_eq_getElem hi] at hx
      exact Option.some.inj hx
    refine ⟨lv[i], List.getElem?_eq_getElem hj, ?_⟩
    rw [← hx']
    exact (List.forall₂_iff_get.mp hf).2 i hi hj

/-- Witness of C1 on `["x", "", nil]`. -/
theorem convert_slice_elementwise_witness :
    ∃ lv : List AttributeValue,
      convertDynamoDBAttributeValue (fun _ _ => "1.5")
          (.slice [.string "x", .string "", .nil]) =
        .ok (.mk none none none (some lv) none none none none none none) ∧
      lv.length = [GoValue.string "x", GoValue.string "", GoValue.nil].length ∧
      ∀ (i : Nat) (x : GoValue),
        [GoValue.string "x", GoValue.string "", GoValue.nil][i]? = some x →
        ∃ a, lv[i]? = some a ∧
          convertDynamoDBAttributeValue (fun _ _ => "1.5") x = .ok a :=
  convert_slice_elementwise (fun _ _ => "1.5") [.string "x", .string "", .nil] (by
    intro x hx
    simp only [List.mem_cons, List.mem_singleton, List.not_mem_nil, or_false] at hx
    rcases hx with rfl | rfl | rfl <;> exact ⟨_, rfl⟩)

/-- C2: for a `map[string]interface{}` (distinct keys) all of whose values
convert, the converter succeeds with an attribute value in which only `M` is
set; the payload has exactly the keys of the input and its value at each key is
the conversion of the input value at that key. -/
theorem convert_map_keywise (fmtV : FloatKind → Nat → String)
    (M : List (String × GoValue)) (hM : (mapKeys M).Nodup)
    (h : ∀ p ∈ M, ∃ a, convertDynamoDBAttributeValue fmtV p.2 = .ok a) :
    ∃ mv : List (String × AttributeValue),
      convertDynamoDBAttributeValue fmtV (.map M) =
        .ok (.mk none none none none (some mv) none none none none none) ∧
      (mapKeys mv).Nodup ∧
      (∀ k, k ∈ mapKeys mv ↔ k ∈ mapKeys M) ∧
      ∀ (k : String) (v : GoValue), mapGet M k = some v →
        ∃ a, mapGet mv k = some a ∧ convertDynamoDBAttributeValue fmtV v = .ok a := by
  obtain ⟨mv, hmv⟩ := convertMap_ok_of_forall fmtV M [] h
  refine ⟨mv, ?_, ?_, ?_, ?_⟩
  · simp [convertDynamoDBAttributeValue, hmv, AttributeValue.new, AttributeValue.SetM]
  · exact convertMap_nodup fmtV M [] mv hmv (by simp [mapKeys])
  · intro k
    rw [convertMap_keys fmtV M [] mv hmv k]
    simp [mapKeys]
  · intro k v hkv
    exact convertMap_get_mem fmtV M [] mv hM hmv k v (mapGet_of_mem M k v hkv)

/-- Witness of C2 on `{"a": 1.5, "d": true}`. -/
theorem convert_map_keywise_witness :
    ∃ mv : List (String × AttributeValue),
      convertDynamoDBAttributeValue (fun _ _ => "1.5")
          (.map [("a", .float .float64 4609434218613702656), ("d", .bool true)]) =
        .ok (.mk none none none none (some mv) none none none none none) ∧
      (mapKeys mv).Nodup ∧
      (∀ k, k ∈ mapKeys mv ↔
        k ∈ mapKeys [("a", GoValue.float .float64 4609434218613702656),
          ("d", GoValue.bool true)]) ∧
      ∀ (k : String) (v : GoValue),
        mapGet [("a", GoValue.float .float64 4609434218613702656),
          ("d", GoValue.bool true)] k = some v →
        ∃ a, mapGet mv k = some a ∧
          convertDynamoDBAttributeValue (fun _ _ => "1.5") v = .ok a :=
  convert_map_keywise (fun _ _ => "1.5")
    [("a", .float .float64 4609434218613702656), ("d", .bool true)]
    (by simp [mapKeys])
    (by
      intro p hp
      simp only [List.mem_cons, List.mem_singleton, List.not_mem_nil, or_false] at hp
      rcases hp with rfl | rfl <;> exact ⟨_, rfl⟩)

/-- C3 (as the code behaves): for a value of any of the ten listed integer
kinds the converter succeeds with an attribute value in which no field is set;
in particular `N` is not set, so 42 does not become the number "42". -/
theorem convert_integer_sets_no_field (fmtV : FloatKind → Nat → String)
    (ki : IntKind) (n : Int) (ku : UintKind) (m : Nat) :
    convertDynamoDBAttributeValue fmtV (.int ki n) =
        .ok (.mk none none none none none none none none none none) ∧
      convertDynamoDBAttributeValue fmtV (.uint ku m) =
        .ok (.mk none none none none none none none none none none) ∧
      convertDynamoDBAttributeValue fmtV (.int .int 42) ≠
        .ok (.mk none none none none none (some "42") none none none none) := by
  refine ⟨rfl, rfl, ?_⟩
  intro h
  simp [convertDynamoDBAttributeValue, AttributeValue.new] at h

/-- C4: for a float32 or float64 value the converter succeeds with an attribute
value in which only `N` is set, its payload being the `%v` rendering of the
value. -/
theorem convert_float_number (fmtV : FloatKind → Nat → String) (k : FloatKind)
    (bits : Nat) :
    convertDynamoDBAttributeValue fmtV (.float k bits) =
      .ok (.mk none none none none none (some (fmtV k bits)) none none none none) :=
  rfl

/-- C5: the nil interface and the empty string both convert to an attribute
value in which `NULL` is true and no other field is set. -/
theorem convert_nil_and_empty_string (fmtV : FloatKind → Nat → String) :
    convertDynamoDBAttributeValue fmtV .nil =
        .ok (.mk none none none none none none none (some true) none none) ∧
      convertDynamoDBAttributeValue fmtV (.string "") =
        .ok (.mk none none none none none none none (some true) none none) :=
  ⟨rfl, rfl⟩

/-- C6: a non-empty string converts to an attribute value in which only `S` is
set, its payload being the string itself. -/
theorem convert_nonempty_string (fmtV : FloatKind → Nat → String) (s : String)
    (hs : s ≠ "") :
    convertDynamoDBAttributeValue fmtV (.string s) =
      .ok (.mk none none none none none none none none (some s) none) := by
  simp [convertDynamoDBAttributeValue, hs, AttributeValue.new, AttributeValue.SetS]

/-- Witness of C6 on the string "x". -/
theorem convert_nonempty_string_witness :
    convertDynamoDBAttributeValue (fun _ _ => "1.5") (.string "x") =
      .ok (.mk none none none none none none none none (some "x") none) :=
  convert_nonempty_string (fun _ _ => "1.5") "x" (by decide)

/-- C7: a boolean converts to an attribute value in which only `BOOL` is set,
its payload being the boolean itself. -/
theorem convert_bool (fmtV : FloatKind → Nat → String) (b : Bool) :
    convertDynamoDBAttributeValue fmtV (.bool b) =
      .ok (.mk none (some b) none none none none none none none none) :=
  rfl

/-- C8: when some element of a `[]interface{}` fails to convert, the converter
returns the error of the failing element of lowest index, unchanged, and no
value; when some value of a `map[string]interface{}` fails to convert, it
returns the error of one of the failing entries, unchanged, and no value. -/
theorem convert_container_fail_fast (fmtV : FloatKind → Nat → String)
    (L : List GoValue) (M : List (String × GoValue))
    (hL : ∃ x ∈ L, ∃ e, convertDynamoDBAttributeValue fmtV x = .error e)
    (hM : ∃ p ∈ M, ∃ e, convertDynamoDBAttributeValue fmtV p.2 = .error e) :
    (∃ (i : Nat) (x : GoValue) (e : String),
      L[i]? = some x ∧ convertDynamoDBAttributeValue fmtV x = .error e ∧
      (∀ (j : Nat) (y : GoValue), j < i → L[j]? = some y →
        ∃ a, convertDynamoDBAttributeValue fmtV y = .ok a) ∧
      convertDynamoDBAttributeValue fmtV (.slice L) = .error e) ∧
    (∃ p ∈ M, ∃ e, convertDynamoDBAttributeValue fmtV p.2 = .error e ∧
      convertDynamoDBAttributeValue fmtV (.map M) = .error e) := by
  constructor
  · obtain ⟨i, x, e, hix, hxe, hlt, hres⟩ := convertList_first_error fmtV L hL
    exact ⟨i, x, e, hix, hxe, hlt, by simp [convertDynamoDBAttributeValue, hres]⟩
  · obtain ⟨p, hp, e, hpe, hres⟩ := convertMap_error fmtV M [] hM
    exact ⟨p, hp, e, hpe, by simp [convertDynamoDBAttributeValue, hres]⟩

/-- Witness of C8 on the list `[true, <chan>, <func>]` and the map
`{"a": true, "b": <func>}`. -/
theorem convert_container_fail_fast_witness :
    (∃ (i : Nat) (x : GoValue) (e : String),
      [GoValue.bool true, GoValue.other .chan, GoValue.other .func][i]? = some x ∧
      convertDynamoDBAttributeValue (fun _ _ => "1.5") x = .error e ∧
      (∀ (j : Nat) (y : GoValue), j < i →
        [GoValue.bool true, GoValue.other .chan, GoValue.other .func][j]? = some y →
        ∃ a, convertDynamoDBAttributeValue (fun _ _ => "1.5") y = .ok a) ∧
      convertDynamoDBAttributeValue (fun _ _ => "1.5")
        (.slice [.bool true, .other .chan, .other .func]) = .error e) ∧
    (∃ p ∈ [("a", GoValue.bool true), ("b", GoValue.other .func)],
      ∃ e, convertDynamoDBAttributeValue (fun _ _ => "1.5") p.2 = .error e ∧
      convertDynamoDBAttributeValue (fun _ _ => "1.5")
        (.map [("a", .bool true), ("b", .other .func)]) = .error e) :=
  convert_container_fail_fast (fun _ _ => "1.5")
    [.bool true, .other .chan, .other .func]
    [("a", .bool true), ("b", .other .func)]
    ⟨.other .chan, by simp, _, rfl⟩
    ⟨("b", .other .func), by simp, _, rfl⟩

/-- C9: a non-nil value whose kind is none of the case labels of the switch
(the ten integer kinds, the two floating-point kinds, string, bool, slice, map)
makes the converter return no value and the error
"(<kind>) is not a supporting type", with the name of that kind. -/
theorem convert_unsupported_kind (fmtV : FloatKind → Nat → String) (v : GoValue)
    (k : Kind) (hk : v.kind = some k) (hns : k ∉ switchKinds) :
    convertDynamoDBAttributeValue fmtV v =
      .error ("(" ++ kindString k ++ ") is not a supporting type") := by
  cases v with
  | nil => simp [GoValue.kind] at hk
  | bool b =>
    simp only [GoValue.kind, Option.some.injEq] at hk
    subst hk
    exact absurd (by decide) hns
  | int ki n =>
    simp only [GoValue.kind, Option.some.injEq] at hk
    subst hk
    cases ki <;> exact absurd (by decide) hns
  | uint ku n =>
    simp only [GoValue.kind, Option.some.injEq] at hk
    subst hk
    cases ku <;> exact absurd (by decide) hns
  | float kf bits =>
    simp only [GoValue.kind, Option.some.injEq] at hk
    subst hk
    cases kf <;> exact absurd (by decide) hns
  | string s =>
    simp only [GoValue.kind, Option.some.injEq] at hk
    subst hk
    exact absurd (by decide) hns
  | slice items =>
    simp only [GoValue.kind, Option.some.injEq] at hk
    subst hk
    exact absurd (by decide) hns
  | otherSlice =>
    simp only [GoValue.kind, Option.some.injEq] at hk
    subst hk
    exact absurd (by decide) hns
  | map item =>
    simp only [GoValue.kind, Option.some.injEq] at hk
    subst hk
    exact absurd (by decide) hns
  | otherMap =>
    simp only [GoValue.kind, Option.some.injEq] at hk
    subst hk
    exact absurd (by decide) hns
  | other ko =>
    simp only [GoValue.kind, Option.some.injEq] at hk
    subst hk
    rfl

/-- Witness of C9 on a function value. -/
theorem convert_unsupported_kind_witness :
    convertDynamoDBAttributeValue (fun _ _ => "1.5") (.other .func) =
      .error ("(" ++ kindString .Func ++ ") is not a supporting type") :=
  convert_unsupported_kind (fun _ _ => "1.5") (.other .func) .Func rfl (by decide)

/-- C10: a tree of values that has, at any depth inside slices and maps, a node
whose kind the switch does not list makes the top-level call return an error
and no value. -/
theorem convert_tree_with_unsupported_node_fails (fmtV : FloatKind → Nat → String)
    (v : GoValue) (h : hasUnsupportedNode v = true) :
    ∃ e, convertDynamoDBAttributeValue fmtV v = .error e :=
  convert_error_of_hasUnsupportedNode fmtV v h

/-- Witness of C10 on `{"a": 1.5, "b": ["x", {"c": <func>}]}`, the function
value sitting at depth three. -/
theorem convert_tree_with_unsupported_node_fails_witness :
    ∃ e, convertDynamoDBAttributeValue (fun _ _ => "1.5")
      (.map [("a", .float .float64 4609434218613702656),
        ("b", .slice [.string "x", .map [("c", .other .func)]])]) = .error e :=
  convert_tree_with_unsupported_node_fails (fun _ _ => "1.5")
    (.map [("a", .float .float64 4609434218613702656),
      ("b", .slice [.string "x", .map [("c", .other .func)]])]) rfl

/-! ## Lemmas on JSON-shaped values and on the tags of a result -/

mutual

theorem convert_ok_of_jsonShaped (fmtV : FloatKind → Nat → String) :
    ∀ v, jsonShaped v = true → ∃ a, convertDynamoDBAttributeValue fmtV v = .ok a
  | .nil, _ => ⟨_, rfl⟩
  | .bool _, _ => ⟨_, rfl⟩
  | .int _ _, h => by simp [jsonShaped] at h
  | .uint _ _, h => by simp [jsonShaped] at h
  | .float .float64 _, _ => ⟨_, rfl⟩
  | .float .float32 _, h => by simp [jsonShaped] at h
  | .string s, _ => by
    by_cases hs : s = ""
    · exact ⟨AttributeValue.new.SetNULL true, by simp [convertDynamoDBAttributeValue, hs]⟩
    · exact ⟨AttributeValue.new.SetS s, by simp [convertDynamoDBAttributeValue, hs]⟩
  | .otherSlice, h => by simp [jsonShaped] at h
  | .otherMap, h => by simp [jsonShaped] at h
  | .other _, h => by simp [jsonShaped] at h
  | .slice items, h => by
    have h' : jsonShapedList items = true := by simpa [jsonShaped] using h
    obtain ⟨lv, hlv⟩ := convertList_ok_of_jsonShaped fmtV items h'
    exact ⟨AttributeValue.new.SetL lv, by simp [convertDynamoDBAttributeValue, hlv]⟩
  | .map item, h => by
    have h' : jsonShapedMap item = true := by simpa [jsonShaped] using h
    obtain ⟨mv, hmv⟩ := convertMap_ok_of_jsonShaped fmtV item [] h'
    exact ⟨AttributeValue.new.SetM mv, by simp [convertDynamoDBAttributeValue, hmv]⟩

theorem convertList_ok_of_jsonShaped (fmtV : FloatKind → Nat → String) :
    ∀ L, jsonShapedList L = true →
      ∃ lv, convertListOfDynamoDBAttributeValue fmtV L = .ok lv
  | [], _ => ⟨[], by simp [convertListOfDynamoDBAttributeValue]⟩
  | v :: rest, h => by
    have h' : jsonShaped v = true ∧ jsonShapedList rest = true := by
      simpa [jsonShapedList] using h
    obtain ⟨a, ha⟩ := convert_ok_of_jsonShaped fmtV v h'.1
    obtain ⟨lv, hlv⟩ := convertList_ok_of_jsonShaped fmtV rest h'.2
    exact ⟨a :: lv, by simp [convertListOfDynamoDBAttributeValue, ha, hlv]⟩

theorem convertMap_ok_of_jsonShaped (fmtV : FloatKind → Nat → String) :
    ∀ (M : List (String × GoValue)) (iv : List (String × AttributeValue)),
      jsonShapedMap M = true →
      ∃ mv, convertMapOfDynamoDBAttributeValue fmtV iv M = .ok mv
  | [], iv, _ => ⟨iv, by simp [convertMapOfDynamoDBAttributeValue]⟩
  | (k, v) :: rest, iv, h => by
    have h' : jsonShaped v = true ∧ jsonShapedMap rest = true := by
      simpa [jsonShapedMap] using h
    obtain ⟨a, ha⟩ := convert_ok_of_jsonShaped fmtV v h'.1
    obtain ⟨mv, hmv⟩ := convertMap_ok_of_jsonShaped fmtV rest (mapSet iv k a) h'.2
    exact ⟨mv, by simp [convertMapOfDynamoDBAttributeValue, ha, hmv]⟩

end

theorem oneTagEverywhereMap_mapSet (iv : List (String × AttributeValue)) (k : String)
    (a : AttributeValue) (hiv : oneTagEverywhereMap iv = true)
    (ha : oneTagEverywhere a = true) : oneTagEverywhereMap (mapSet iv k a) = true := by
  induction iv with
  | nil => simp [mapSet, oneTagEverywhereMap, ha]
  | cons p rest ih =>
    obtain ⟨k0, a0⟩ := p
    have h' : oneTagEverywhere a0 = true ∧ oneTagEverywhereMap rest = true := by
      simpa [oneTagEverywhereMap] using hiv
    by_cases h0 : k0 = k
    · simp [mapSet, h0, oneTagEverywhereMap, ha, h'.2]
    · simp [mapSet, h0, oneTagEverywhereMap, h'.1, ih h'.2]

mutual

theorem convert_oneTag_of_no_integer (fmtV : FloatKind → Nat → String) :
    ∀ v a, hasIntegerNode v = false → convertDynamoDBAttributeValue fmtV v = .ok a →
      oneTagEverywhere a = true
  | .nil, a, _, h => by
    simp [convertDynamoDBAttributeValue] at h
    subst h
    rfl
  | .bool _, a, _, h => by
    simp [convertDynamoDBAttributeValue] at h
    subst h
    rfl
  | .int _ _, _, hn, _ => by simp [hasIntegerNode] at hn
  | .uint _ _, _, hn, _ => by simp [hasIntegerNode] at hn
  | .float _ _, a, _, h => by
    simp [convertDynamoDBAttributeValue] at h
    subst h
    rfl
  | .string s, a, _, h => by
    by_cases hs : s = ""
    · simp [convertDynamoDBAttributeValue, hs] at h
      subst h
      rfl
    · simp [convertDynamoDBAttributeValue, hs] at h
      subst h
      rfl
  | .otherSlice, _, _, h => by simp [convertDynamoDBAttributeValue] at h
  | .otherMap, _, _, h => by simp [convertDynamoDBAttributeValue] at h
  | .other _, _, _, h => by simp [convertDynamoDBAttributeValue] at h
  | .slice items, a, hn, h => by
    have hn' : hasIntegerNodeList items = false := by simpa [hasIntegerNode] using hn
    rw [convertDynamoDBAttributeValue] at h
    cases hl : convertListOfDynamoDBAttributeValue fmtV items with
    | error e => simp [hl] at h
    | ok lv =>
      simp [hl] at h
      subst h
      have := convertList_oneTag_of_no_integer fmtV items lv hn' hl
      simp [AttributeValue.new, AttributeValue.SetL, oneTagEverywhere,
        oneTagEverywhereL, oneTagEverywhereM, this]
  | .map item, a, hn, h => by
    have hn' : hasIntegerNodeMap item = false := by simpa [hasIntegerNode] using hn
    rw [convertDynamoDBAttributeValue] at h
    cases hm : convertMapOfDynamoDBAttributeValue fmtV [] item with
    | error e => simp [hm] at h
    | ok mv =>
      simp [hm] at h
      subst h
      have := convertMap_oneTag_of_no_integer fmtV item [] mv hn' rfl hm
      simp [AttributeValue.new, AttributeValue.SetM, oneTagEverywhere,
        oneTagEverywhereL, oneTagEverywhereM, this]

theorem convertList_oneTag_of_no_integer (fmtV : FloatKind → Nat → String) :
    ∀ L lv, hasIntegerNodeList L = false →
      convertListOfDynamoDBAttributeValue fmtV L = .ok lv →
      oneTagEverywhereList lv = true
  | [], lv, _, h => by
    simp [convertListOfDynamoDBAttributeValue] at h
    subst h
    rfl
  | v :: rest, lv, hn, h => by
    have hn' : hasIntegerNode v = false ∧ hasIntegerNodeList rest = false := by
      simpa [hasIntegerNodeList] using hn
    rw [convertListOfDynamoDBAttributeValue] at h
    cases hv : convertDynamoDBAttributeValue fmtV v with
    | error e => simp [hv] at h
    | ok a =>
      cases hr : convertListOfDynamoDBAttributeValue fmtV rest with
      | error e => simp [hv, hr] at h
      | ok l =>
        simp [hv, hr] at h
        subst h
        simp [oneTagEverywhereList, convert_oneTag_of_no_integer fmtV v a hn'.1 hv,
          convertList_oneTag_of_no_integer fmtV rest l hn'.2 hr]

theorem convertMap_oneTag_of_no_integer (fmtV : FloatKind → Nat → String) :
    ∀ (M : List (String × GoValue)) (iv mv : List (String × AttributeValue)),
      hasIntegerNodeMap M = false → oneTagEverywhereMap iv = true →
      convertMapOfDynamoDBAttributeValue fmtV iv M = .ok mv →
      oneTagEverywhereMap mv = true
  | [], iv, mv, _, hiv, h => by
    simp [convertMapOfDynamoDBAttributeValue] at h
    subst h
    exact hiv
  | (k, v) :: rest, iv, mv, hn, hiv, h => by
    have hn' : hasIntegerNode v = false ∧ hasIntegerNodeMap rest = false := by
      simpa [hasIntegerNodeMap] using hn
    obtain ⟨a, ha, hrest⟩ := convertMap_cons_ok fmtV iv k v rest mv h
    exact convertMap_oneTag_of_no_integer fmtV rest (mapSet iv k a) mv hn'.2
      (oneTagEverywhereMap_mapSet iv k a hiv
        (convert_oneTag_of_no_integer fmtV v a hn'.1 ha)) hrest

end

/-! ## The map loop on a map with distinct keys -/

theorem mapSet_of_not_mem {α : Type} (m : List (String × α)) (k : String) (a : α)
    (h : k ∉ mapKeys m) : mapSet m k a = m ++ [(k, a)] := by
  induction m with
  | nil => rfl
  | cons p rest ih =>
    obtain ⟨k0, a0⟩ := p
    have h' : k ≠ k0 ∧ k ∉ mapKeys rest := by
      simpa [mapKeys] using h
    have h0 : ¬ k0 = k := fun e => h'.1 e.symm
    simp [mapSet, h0, ih h'.2]

theorem convertMap_eq_append (fmtV : FloatKind → Nat → String)
    (M : List (String × GoValue)) :
    ∀ iv mv, (mapKeys M).Nodup → (∀ k ∈ mapKeys M, k ∉ mapKeys iv) →
      convertMapOfDynamoDBAttributeValue fmtV iv M = .ok mv →
      ∃ out, mv = iv ++ out ∧
        List.Forall₂ (fun p q => q.1 = p.1 ∧
          convertDynamoDBAttributeValue fmtV p.2 = .ok q.2) M out := by
  induction M with
  | nil =>
    intro iv mv _ _ h
    simp [convertMapOfDynamoDBAttributeValue] at h
    exact ⟨[], by simp [h], List.Forall₂.nil⟩
  | cons p rest ih =>
    intro iv mv hn hd h
    obtain ⟨k0, v0⟩ := p
    obtain ⟨a, ha, hrest⟩ := convertMap_cons_ok fmtV iv k0 v0 rest mv h
    have hn' : k0 ∉ mapKeys rest ∧ (mapKeys rest).Nodup := by
      simpa [mapKeys] using hn
    have hk0 : k0 ∉ mapKeys iv := hd k0 (by simp [mapKeys])
    rw [mapSet_of_not_mem iv k0 a hk0] at hrest
    have hd' : ∀ k ∈ mapKeys rest, k ∉ mapKeys (iv ++ [(k0, a)]) := by
      intro k hk hmem
      have hmem' : k ∈ mapKeys iv ∨ k = k0 := by
        simpa [mapKeys] using hmem
      rcases hmem' with h1 | h1
      · exact hd k (by
          have : k ∈ mapKeys rest := hk
          simp only [mapKeys, List.map_cons, List.mem_cons]
          exact Or.inr this) h1
      · exact hn'.1 (h1 ▸ hk)
    obtain ⟨out, hout, hf⟩ := ih (iv ++ [(k0, a)]) mv hn'.2 hd' hrest
    exact ⟨(k0, a) :: out, by simp [hout], List.Forall₂.cons ⟨rfl, ha⟩ hf⟩

/-! ## The claims on type mismatch, tags, the nested example and totality -/

/-- C11: a value of slice kind that is not a `[]interface{}` makes the converter
return no value and the error "Expect value is []interface{}"; a value of map
kind that is not a `map[string]interface{}` makes it return no value and the
error "Expect value is map[string]interface{}"; neither message is the
unsupported-type message of any kind. -/
theorem convert_type_mismatch (fmtV : FloatKind → Nat → String) (vs vm : GoValue)
    (hs : vs.kind = some .Slice) (hs' : ∀ items, vs ≠ .slice items)
    (hm : vm.kind = some .Map) (hm' : ∀ item, vm ≠ .map item) :
    convertDynamoDBAttributeValue fmtV vs =
        .error "Expect value is []interface\x7b\x7d" ∧
      convertDynamoDBAttributeValue fmtV vm =
        .error "Expect value is map[string]interface\x7b\x7d" ∧
      ∀ k : Kind,
        "Expect value is []interface\x7b\x7d" ≠
            "(" ++ kindString k ++ ") is not a supporting type" ∧
          "Expect value is map[string]interface\x7b\x7d" ≠
            "(" ++ kindString k ++ ") is not a supporting type" := by
  refine ⟨?_, ?_, ?_⟩
  · cases vs with
    | slice items => exact absurd rfl (hs' items)
    | otherSlice => rfl
    | nil => simp [GoValue.kind] at hs
    | bool b => simp [GoValue.kind] at hs
    | int k n => cases k <;> simp [GoValue.kind, IntKind.toKind] at hs
    | uint k n => cases k <;> simp [GoValue.kind, UintKind.toKind] at hs
    | float k b => cases k <;> simp [GoValue.kind, FloatKind.toKind] at hs
    | string s => simp [GoValue.kind] at hs
    | map item => simp [GoValue.kind] at hs
    | otherMap => simp [GoValue.kind] at hs
    | other k => cases k <;> simp [GoValue.kind, OtherKind.toKind] at hs
  · cases vm with
    | map item => exact absurd rfl (hm' item)
    | otherMap => rfl
    | nil => simp [GoValue.kind] at hm
    | bool b => simp [GoValue.kind] at hm
    | int k n => cases k <;> simp [GoValue.kind, IntKind.toKind] at hm
    | uint k n => cases k <;> simp [GoValue.kind, UintKind.toKind] at hm
    | float k b => cases k <;> simp [GoValue.kind, FloatKind.toKind] at hm
    | string s => simp [GoValue.kind] at hm
    | slice items => simp [GoValue.kind] at hm
    | otherSlice => simp [GoValue.kind] at hm
    | other k => cases k <;> simp [GoValue.kind, OtherKind.toKind] at hm
  · intro k
    cases k <;> exact ⟨by decide, by decide⟩

/-- Witness of C11 on a slice that is not a `[]interface{}` and a map that is
not a `map[string]interface{}`. -/
theorem convert_type_mismatch_witness :
    convertDynamoDBAttributeValue (fun _ _ => "1.5") .otherSlice =
        .error "Expect value is []interface\x7b\x7d" ∧
      convertDynamoDBAttributeValue (fun _ _ => "1.5") .otherMap =
        .error "Expect value is map[string]interface\x7b\x7d" ∧
      ∀ k : Kind,
        "Expect value is []interface\x7b\x7d" ≠
            "(" ++ kindString k ++ ") is not a supporting type" ∧
          "Expect value is map[string]interface\x7b\x7d" ≠
            "(" ++ kindString k ++ ") is not a supporting type" :=
  convert_type_mismatch (fun _ _ => "1.5") .otherSlice .otherMap rfl
    (fun _ h => by cases h) rfl (fun _ h => by cases h)

/-- C12 (as the code behaves): the integer 42 converts with success to an
attribute value with none of its six tags set, and the list `[42]` converts to
a list value whose only element has no tag set; neither result has exactly one
tag at every depth. -/
theorem convert_integer_breaks_one_tag (fmtV : FloatKind → Nat → String) :
    (∃ a, convertDynamoDBAttributeValue fmtV (.int .int 42) = .ok a ∧
      a.tagCount = 0 ∧ oneTagEverywhere a = false) ∧
    (∃ a, convertDynamoDBAttributeValue fmtV (.slice [.int .int 42]) = .ok a ∧
      a.tagCount = 1 ∧ oneTagEverywhere a = false) :=
  ⟨⟨_, rfl, rfl, rfl⟩, ⟨_, rfl, rfl, rfl⟩⟩

/-- C13: with 1.5 rendered as "1.5", the map
`{"a": 1.5, "b": ["x", "", nil], "c": {"d": true}}`, its entries visited in any
order, converts to the map value with exactly the entries `a: N "1.5"`,
`b: L [S "x", NULL, NULL]` and `c: M {d: BOOL true}`. -/
theorem convert_nested_example (fmtV : FloatKind → Nat → String)
    (M : List (String × GoValue))
    (hf : fmtV .float64 4609434218613702656 = "1.5")
    (hM : M.Perm [("a", .float .float64 4609434218613702656),
      ("b", .slice [.string "x", .string "", .nil]),
      ("c", .map [("d", .bool true)])]) :
    ∃ mv : List (String × AttributeValue),
      convertDynamoDBAttributeValue fmtV (.map M) =
        .ok (.mk none none none none (some mv) none none none none none) ∧
      mv.Perm [
        ("a", .mk none none none none none (some "1.5") none none none none),
        ("b", .mk none none none (some [
            .mk none none none none none none none none (some "x") none,
            .mk none none none none none none none (some true) none none,
            .mk none none none none none none none (some true) none none])
          none none none none none none),
        ("c", .mk none none none none (some [
            ("d", .mk none (some true) none none none none none none none none)])
          none none none none none)] := by
  have hall : ∀ p ∈ M, ∃ a, convertDynamoDBAttributeValue fmtV p.2 = .ok a := by
    intro p hp
    have hp' := hM.subset hp
    simp only [List.mem_cons, List.mem_singleton, List.not_mem_nil, or_false] at hp'
    rcases hp' with rfl | rfl | rfl <;> exact ⟨_, rfl⟩
  have hnodup : (mapKeys M).Nodup := by
    have hk := (hM.map Prod.fst).nodup_iff
    rw [mapKeys, hk]
    decide
  obtain ⟨mv, hmv⟩ := convertMap_ok_of_forall fmtV M [] hall
  obtain ⟨out, hout, hfa⟩ :=
    convertMap_eq_append fmtV M [] mv hnodup (by simp [mapKeys]) hmv
  obtain ⟨b, hb, hperm⟩ := List.perm_comp_forall₂ hM.symm hfa
  refine ⟨mv, ?_, ?_⟩
  · simp [convertDynamoDBAttributeValue, hmv, AttributeValue.new, AttributeValue.SetM]
  · rw [hout, List.nil_append]
    refine List.Perm.trans hperm.symm (List.Perm.of_eq ?_)
    cases hb with
    | cons h1 hb1 =>
      cases hb1 with
      | cons h2 hb2 =>
        cases hb2 with
        | cons h3 hb3 =>
          cases hb3
          rename_i q1 q2 q3
          obtain ⟨k1, a1⟩ := q1
          obtain ⟨k2, a2⟩ := q2
          obtain ⟨k3, a3⟩ := q3
          obtain ⟨e1, c1⟩ := h1
          obtain ⟨e2, c2⟩ := h2
          obtain ⟨e3, c3⟩ := h3
          simp only at e1 e2 e3 c1 c2 c3
          subst e1 e2 e3
          have c1' : a1 = .mk none none none none none (some "1.5") none none none none := by
            have : convertDynamoDBAttributeValue fmtV (.float .float64 4609434218613702656) =
                .ok (.mk none none none none none (some "1.5") none none none none) := by
              rw [← hf]
              rfl
            rw [this] at c1
            exact (Except.ok.inj c1).symm
          have c2' := (Except.ok.inj ((show convertDynamoDBAttributeValue fmtV
            (.slice [.string "x", .string "", .nil]) = _ from rfl).symm.trans c2)).symm
          have c3' := (Except.ok.inj ((show convertDynamoDBAttributeValue fmtV
            (.map [("d", .bool true)]) = _ from rfl).symm.trans c3)).symm
          rw [c1', c2', c3']
          rfl

/-- Witness of C13 on the order a, b, c of the entries. -/
theorem convert_nested_example_witness :
    ∃ mv : List (String × AttributeValue),
      convertDynamoDBAttributeValue (fun _ _ => "1.5")
          (.map [("a", .float .float64 4609434218613702656),
            ("b", .slice [.string "x", .string "", .nil]),
            ("c", .map [("d", .bool true)])]) =
        .ok (.mk none none none none (some mv) none none none none none) ∧
      mv.Perm [
        ("a", .mk none none none none none (some "1.5") none none none none),
        ("b", .mk none none none (some [
            .mk none none none none none none none none (some "x") none,
            .mk none none none none none none none (some true) none none,
            .mk none none none none none none none (some true) none none])
          none none none none none none),
        ("c", .mk none none none none (some [
            ("d", .mk none (some true) none none none none none none none none)])
          none none none none none)] :=
  convert_nested_example (fun _ _ => "1.5") _ rfl (List.Perm.refl _)

/-- C19: a value built only from nil, bool, float64, string, `[]interface{}`
and `map[string]interface{}` converts with success, and so does every item all
of whose values are of that shape. -/
theorem convert_total_on_json (fmtV : FloatKind → Nat → String) (v : GoValue)
    (item : List (String × GoValue)) (hv : jsonShaped v = true)
    (hitem : jsonShapedMap item = true) :
    (∃ a, convertDynamoDBAttributeValue fmtV v = .ok a) ∧
      ∃ iv, convertMapOfDynamoDBAttributeValue fmtV [] item = .ok iv :=
  ⟨convert_ok_of_jsonShaped fmtV v hv, convertMap_ok_of_jsonShaped fmtV item [] hitem⟩

/-- Witness of C19 on the value `[nil, 1.5, {"d": true}]` and the item
`{"a": "x", "b": [false]}`. -/
theorem convert_total_on_json_witness :
    (∃ a, convertDynamoDBAttributeValue (fun _ _ => "1.5")
      (.slice [.nil, .float .float64 4609434218613702656,
        .map [("d", .bool true)]]) = .ok a) ∧
      ∃ iv, convertMapOfDynamoDBAttributeValue (fun _ _ => "1.5") []
        [("a", .string "x"), ("b", .slice [.bool false])] = .ok iv :=
  convert_total_on_json (fun _ _ => "1.5")
    (.slice [.nil, .float .float64 4609434218613702656, .map [("d", .bool true)]])
    [("a", .string "x"), ("b", .slice [.bool false])] rfl rfl

/-! ## Lemmas on the seeding loop -/

theorem seedTableLoop_stops_at_failing_item (svc : Service)
    (fmtV : FloatKind → Nat → String) (table : String)
    (bad : List (String × GoValue)) (post : List (List (String × GoValue)))
    (e : String) (hbad : convertMapOfDynamoDBAttributeValue fmtV [] bad = .error e)
    (pre : List (List (String × GoValue))) :
    ∀ (ivs : List (List (String × AttributeValue))) (calls : List Call),
      List.Forall₂ (fun item iv =>
        convertMapOfDynamoDBAttributeValue fmtV [] item = .ok iv) pre ivs →
      (seedTableLoop svc fmtV table (pre ++ bad :: post) calls).1 ≠ none ∧
      ∃ n, n ≤ ivs.length ∧
        (seedTableLoop svc fmtV table (pre ++ bad :: post) calls).2 =
          calls ++ (ivs.take n).map (fun iv => Call.PutItem ⟨some iv, some table⟩) ∧
        ((∀ (j : Nat) (iv : List (String × AttributeValue)), ivs[j]? = some iv →
            svc (calls ++ (ivs.take j).map
              (fun iv => Call.PutItem ⟨some iv, some table⟩))
              (.PutItem ⟨some iv, some table⟩) = none) →
          n = ivs.length ∧
            (seedTableLoop svc fmtV table (pre ++ bad :: post) calls).1 = some e) := by
  induction pre with
  | nil =>
    intro ivs calls hf
    cases hf
    simp [seedTableLoop, hbad]
  | cons item rest ih =>
    intro ivs calls hf
    cases hf with
    | cons hitem hrest =>
      rename_i iv ivs1
      cases hsvc : svc calls (.PutItem ⟨some iv, some table⟩) with
      | some err =>
        refine ⟨by simp [seedTableLoop, hitem, hsvc], 1, by simp, ?_, ?_⟩
        · simp [seedTableLoop, hitem, hsvc]
        · intro hput
          have h0 := hput 0 iv (by simp)
          simp [hsvc] at h0
      | none =>
        obtain ⟨hne, n, hn, hcalls, hok⟩ :=
          ih ivs1 (calls ++ [.PutItem ⟨some iv, some table⟩]) hrest
        have hstep : seedTableLoop svc fmtV table ((item :: rest) ++ bad :: post) calls =
            seedTableLoop svc fmtV table (rest ++ bad :: post)
              (calls ++ [.PutItem ⟨some iv, some table⟩]) := by
          simp [seedTableLoop, hitem, hsvc]
        rw [hstep]
        refine ⟨hne, n + 1, by simpa using hn, ?_, ?_⟩
        · rw [hcalls]
          simp
        · intro hput
          have hput' : ∀ (j : Nat) (iv' : List (String × AttributeValue)),
              ivs1[j]? = some iv' →
              svc (calls ++ [.PutItem ⟨some iv, some table⟩] ++ (ivs1.take j).map
                (fun iv => Call.PutItem ⟨some iv, some table⟩))
                (.PutItem ⟨some iv', some table⟩) = none := by
            intro j iv' hj
            have := hput (j + 1) iv' (by simpa using hj)
            simpa using this
          obtain ⟨hn', he⟩ := hok hput'
          exact ⟨by simp [hn'], he⟩

/-! ## The claims on seeding -/

/-- C14 (amended): when the first item that fails to convert is preceded by the
items `pre`, `seedTable` issues PutItem calls only for an initial segment of
`pre`, in order, so none for the failing item or any later item; and when each
of the PutItem calls for `pre` is accepted, it returns exactly the conversion
error of the failing item. -/
theorem seedTable_first_convert_error (svc : Service) (fmtV : FloatKind → Nat → String)
    (schema : jsonSchema) (calls : List Call)
    (pre : List (List (String × GoValue))) (bad : List (String × GoValue))
    (post : List (List (String × GoValue)))
    (ivs : List (List (String × AttributeValue))) (e : String)
    (hitems : schema.Items = pre ++ bad :: post)
    (hpre : List.Forall₂ (fun item iv =>
      convertMapOfDynamoDBAttributeValue fmtV [] item = .ok iv) pre ivs)
    (hbad : convertMapOfDynamoDBAttributeValue fmtV [] bad = .error e) :
    (∃ n, n ≤ pre.length ∧ (seedTable svc fmtV schema calls).calls =
      calls ++ (ivs.take n).map
        (fun iv => Call.PutItem ⟨some iv, some schema.Table⟩)) ∧
    ((∀ (j : Nat) (iv : List (String × AttributeValue)), ivs[j]? = some iv →
        svc (calls ++ (ivs.take j).map
          (fun iv => Call.PutItem ⟨some iv, some schema.Table⟩))
          (.PutItem ⟨some iv, some schema.Table⟩) = none) →
      (seedTable svc fmtV schema calls).err = some e) := by
  obtain ⟨_, n, hn, hcalls, hok⟩ :=
    seedTableLoop_stops_at_failing_item svc fmtV schema.Table bad post e hbad pre ivs
      calls hpre
  have hlen : ¬ schema.Items.length = 0 := by simp [hitems]
  have hseed : seedTable svc fmtV schema calls =
      ⟨(seedTableLoop svc fmtV schema.Table (pre ++ bad :: post) calls).1, schema,
        (seedTableLoop svc fmtV schema.Table (pre ++ bad :: post) calls).2⟩ := by
    rw [seedTable, if_neg hlen, hitems]
  constructor
  · refine ⟨n, by rw [hpre.length_eq]; exact hn, ?_⟩
    rw [hseed]
    exact hcalls
  · intro hput
    rw [hseed]
    exact (hok hput).2

/-- Witness of C14 on the items `{"a": true}`, `{"b": <func>}` and a service
that accepts every call. -/
theorem seedTable_first_convert_error_witness :
    (∃ n, n ≤ [[("a", GoValue.bool true)]].length ∧
      (seedTable (fun _ _ => none) (fun _ _ => "1.5")
        (itemsSchema [[("a", .bool true)], [("b", .other .func)]]) []).calls =
      [] ++ ([[("a", AttributeValue.mk none (some true) none none none none none none
          none none)]].take n).map
        (fun iv => Call.PutItem ⟨some iv,
          some (itemsSchema [[("a", .bool true)], [("b", .other .func)]]).Table⟩)) ∧
    (seedTable (fun _ _ => none) (fun _ _ => "1.5")
      (itemsSchema [[("a", .bool true)], [("b", .other .func)]]) []).err =
      some "(func) is not a supporting type" :=
  ⟨(seedTable_first_convert_error (fun _ _ => none) (fun _ _ => "1.5")
      (itemsSchema [[("a", .bool true)], [("b", .other .func)]]) []
      [[("a", .bool true)]] [("b", .other .func)] []
      [[("a", .mk none (some true) none none none none none none none none)]]
      "(func) is not a supporting type" rfl
      (List.Forall₂.cons rfl List.Forall₂.nil) rfl).1,
    (seedTable_first_convert_error (fun _ _ => none) (fun _ _ => "1.5")
      (itemsSchema [[("a", .bool true)], [("b", .other .func)]]) []
      [[("a", .bool true)]] [("b", .other .func)] []
      [[("a", .mk none (some true) none none none none none none none none)]]
      "(func) is not a supporting type" rfl
      (List.Forall₂.cons rfl List.Forall₂.nil) rfl).2 (fun _ _ _ => rfl)⟩

/-- Counterexample to C14 as stated: with the items `{"a": true}`,
`{"b": <func>}` and a service that rejects PutItem, `seedTable` returns the
error of the first PutItem call, not the conversion error of the second
item. -/
theorem seedTable_first_convert_error_counterexample :
    convertMapOfDynamoDBAttributeValue (fun _ _ => "1.5") [] [("a", .bool true)] =
        .ok [("a", .mk none (some true) none none none none none none none none)] ∧
      convertMapOfDynamoDBAttributeValue (fun _ _ => "1.5") [] [("b", .other .func)] =
        .error "(func) is not a supporting type" ∧
      (seedTable (fun _ _ => some "RequestError: send request failed")
        (fun _ _ => "1.5")
        (itemsSchema [[("a", .bool true)], [("b", .other .func)]]) []).err =
        some "RequestError: send request failed" ∧
      (seedTable (fun _ _ => some "RequestError: send request failed")
        (fun _ _ => "1.5")
        (itemsSchema [[("a", .bool true)], [("b", .other .func)]]) []).err ≠
        some "(func) is not a supporting type" :=
  ⟨rfl, rfl, rfl, by decide⟩

/-- C15 (amended): when some item fails to convert, `seedTable` fails, and the
PutItem calls it has issued are those for an initial segment of the items that
precede the first failing one, in order; when each of those calls is accepted,
every item that precedes the failing one has been put. -/
theorem seedTable_seeds_preceding_items (svc : Service)
    (fmtV : FloatKind → Nat → String) (schema : jsonSchema) (calls : List Call)
    (pre : List (List (String × GoValue))) (bad : List (String × GoValue))
    (post : List (List (String × GoValue)))
    (ivs : List (List (String × AttributeValue))) (e : String)
    (hitems : schema.Items = pre ++ bad :: post)
    (hpre : List.Forall₂ (fun item iv =>
      convertMapOfDynamoDBAttributeValue fmtV [] item = .ok iv) pre ivs)
    (hbad : convertMapOfDynamoDBAttributeValue fmtV [] bad = .error e) :
    (seedTable svc fmtV schema calls).err ≠ none ∧
    ∃ n, n ≤ pre.length ∧
      (seedTable svc fmtV schema calls).calls =
        calls ++ (ivs.take n).map
          (fun iv => Call.PutItem ⟨some iv, some schema.Table⟩) ∧
      ((∀ (j : Nat) (iv : List (String × AttributeValue)), ivs[j]? = some iv →
          svc (calls ++ (ivs.take j).map
            (fun iv => Call.PutItem ⟨some iv, some schema.Table⟩))
            (.PutItem ⟨some iv, some schema.Table⟩) = none) →
        n = pre.length) := by
  obtain ⟨hne, n, hn, hcalls, hok⟩ :=
    seedTableLoop_stops_at_failing_item svc fmtV schema.Table bad post e hbad pre ivs
      calls hpre
  have hlen : ¬ schema.Items.length = 0 := by simp [hitems]
  have hseed : seedTable svc fmtV schema calls =
      ⟨(seedTableLoop svc fmtV schema.Table (pre ++ bad :: post) calls).1, schema,
        (seedTableLoop svc fmtV schema.Table (pre ++ bad :: post) calls).2⟩ := by
    rw [seedTable, if_neg hlen, hitems]
  constructor
  · rw [hseed]
    exact hne
  · refine ⟨n, by rw [hpre.length_eq]; exact hn, ?_, ?_⟩
    · rw [hseed]
      exact hcalls
    · intro hput
      rw [hpre.length_eq]
      exact (hok hput).1

/-- Witness of C15 on the items `{"a": true}`, `{"b": <func>}`. -/
theorem seedTable_seeds_preceding_items_witness :
    (seedTable (fun _ _ => none) (fun _ _ => "1.5")
      (itemsSchema [[("a", .bool true)], [("b", .other .func)]]) []).err ≠ none ∧
    ∃ n, n ≤ [[("a", GoValue.bool true)]].length ∧
      (seedTable (fun _ _ => none) (fun _ _ => "1.5")
        (itemsSchema [[("a", .bool true)], [("b", .other .func)]]) []).calls =
        [] ++ ([[("a", AttributeValue.mk none (some true) none none none none none
            none none none)]].take n).map
          (fun iv => Call.PutItem ⟨some iv,
            some (itemsSchema [[("a", .bool true)], [("b", .other .func)]]).Table⟩) ∧
      ((∀ (j : Nat) (iv : List (String × AttributeValue)),
          [[("a", AttributeValue.mk none (some true) none none none none none
            none none none)]][j]? = some iv →
          (fun (_ : List Call) (_ : Call) => (none : Option String))
            ([] ++ ([[("a", AttributeValue.mk none (some true) none none none none
              none none none none)]].take j).map
              (fun iv => Call.PutItem ⟨some iv,
                some (itemsSchema
                  [[("a", .bool true)], [("b", .other .func)]]).Table⟩))
            (.PutItem ⟨some iv,
              some (itemsSchema
                [[("a", .bool true)], [("b", .other .func)]]).Table⟩) = none) →
        n = [[("a", GoValue.bool true)]].length) :=
  seedTable_seeds_preceding_items (fun _ _ => none) (fun _ _ => "1.5")
    (itemsSchema [[("a", .bool true)], [("b", .other .func)]]) []
    [[("a", .bool true)]] [("b", .other .func)] []
    [[("a", .mk none (some true) none none none none none none none none)]]
    "(func) is not a supporting type" rfl
    (List.Forall₂.cons rfl List.Forall₂.nil) rfl

/-- Counterexample to C15 as stated: with the items `{"a": true}`,
`{"b": <func>}` and a service that accepts every call, `seedTable` fails on the
second item after it has issued the PutItem call for the first. -/
theorem seedTable_seeds_preceding_items_counterexample :
    convertMapOfDynamoDBAttributeValue (fun _ _ => "1.5") [] [("b", .other .func)] =
        .error "(func) is not a supporting type" ∧
      (seedTable (fun _ _ => none) (fun _ _ => "1.5")
        (itemsSchema [[("a", .bool true)], [("b", .other .func)]]) []).err =
        some "(func) is not a supporting type" ∧
      (seedTable (fun _ _ => none) (fun _ _ => "1.5")
        (itemsSchema [[("a", .bool true)], [("b", .other .func)]]) []).calls =
        [.PutItem ⟨some [("a", .mk none (some true) none none none none none none
          none none)], some "t"⟩] :=
  ⟨rfl, rfl, rfl⟩

/-! ## The claims on `Import`, `createTable` and `deleteTableIfExists` -/

/-- C16: when reading the file fails, or its content fails to unmarshal, or the
parsed table name is empty, `Import` returns that error (the read error, the
JSON error, or "table must be specified") and sends no request to the
service. -/
theorem Import_fails_before_any_call (fs : Files) (svc : Service)
    (fmtV : FloatKind → Nat → String) (path : String) (calls : List Call)
    (err : String)
    (h : fs.ReadFile path = .error err ∨
      (∃ data, fs.ReadFile path = .ok data ∧ fs.Unmarshal data = .error err) ∨
      (∃ data schema, fs.ReadFile path = .ok data ∧ fs.Unmarshal data = .ok schema ∧
        schema.Table = "" ∧ err = "table must be specified")) :
    Import fs svc fmtV path calls = (some err, calls) := by
  rcases h with h | ⟨data, hr, hu⟩ | ⟨data, schema, hr, hu, ht, he⟩
  · simp [Import, h]
  · simp [Import, hr, hu]
  · simp [Import, hr, hu, ht, he]

/-- Witness of C16 on a file that does not exist. -/
theorem Import_fails_before_any_call_witness :
    Import ⟨fun _ => .error "open invalid_file.json: no such file or directory",
        fun _ => .error "unexpected end of JSON input"⟩
      (fun _ _ => none) (fun _ _ => "1.5") "invalid_file.json" [] =
      (some "open invalid_file.json: no such file or directory", []) :=
  Import_fails_before_any_call _ _ _ _ _ _ (Or.inl rfl)

/-- C17: for a schema read and parsed with a non-empty table name, `Import`
runs `deleteTableIfExists`, then `createTable` on what it left, then
`seedTable` on what that left; it returns the first error of a step together
with the requests sent up to that step, and it returns nil exactly when the
three steps return nil. -/
theorem Import_runs_three_steps (fs : Files) (svc : Service)
    (fmtV : FloatKind → Nat → String) (path : String) (calls : List Call)
    (data : List Nat) (schema : jsonSchema)
    (hr : fs.ReadFile path = .ok data) (hu : fs.Unmarshal data = .ok schema)
    (ht : schema.Table ≠ "") :
    (∀ e, (deleteTableIfExists svc schema calls).err = some e →
      Import fs svc fmtV path calls =
        (some e, (deleteTableIfExists svc schema calls).calls)) ∧
    ((deleteTableIfExists svc schema calls).err = none →
      ∀ e, (createTable svc (deleteTableIfExists svc schema calls).schema
          (deleteTableIfExists svc schema calls).calls).err = some e →
        Import fs svc fmtV path calls =
          (some e, (createTable svc (deleteTableIfExists svc schema calls).schema
            (deleteTableIfExists svc schema calls).calls).calls)) ∧
    ((deleteTableIfExists svc schema calls).err = none →
      (createTable svc (deleteTableIfExists svc schema calls).schema
        (deleteTableIfExists svc schema calls).calls).err = none →
      Import fs svc fmtV path calls =
        ((seedTable svc fmtV
            (createTable svc (deleteTableIfExists svc schema calls).schema
              (deleteTableIfExists svc schema calls).calls).schema
            (createTable svc (deleteTableIfExists svc schema calls).schema
              (deleteTableIfExists svc schema calls).calls).calls).err,
          (seedTable svc fmtV
            (createTable svc (deleteTableIfExists svc schema calls).schema
              (deleteTableIfExists svc schema calls).calls).schema
            (createTable svc (deleteTableIfExists svc schema calls).schema
              (deleteTableIfExists svc schema calls).calls).calls).calls)) ∧
    ((Import fs svc fmtV path calls).1 = none ↔
      (deleteTableIfExists svc schema calls).err = none ∧
      (createTable svc (deleteTableIfExists svc schema calls).schema
        (deleteTableIfExists svc schema calls).calls).err = none ∧
      (seedTable svc fmtV
        (createTable svc (deleteTableIfExists svc schema calls).schema
          (deleteTableIfExists svc schema calls).calls).schema
        (createTable svc (deleteTableIfExists svc schema calls).schema
          (deleteTableIfExists svc schema calls).calls).calls).err = none) := by
  generalize hd : deleteTableIfExists svc schema calls = d
  generalize hc : createTable svc d.schema d.calls = c
  generalize hs : seedTable svc fmtV c.schema c.calls = s
  have himp : Import fs svc fmtV path calls =
      match d.err with
      | some e => (some e, d.calls)
      | none =>
        match c.err with
        | some e => (some e, c.calls)
        | none => (s.err, s.calls) := by
    simp only [Import, hr, hu, ht, if_false, actionsLoop, hd, hc, hs]
    cases hde : d.err with
    | some e => simp
    | none =>
      simp only
      cases hce : c.err with
      | some e => simp
      | none =>
        simp only
        cases hse : s.err <;> simp
  rw [himp]
  refine ⟨?_, ?_, ?_, ?_⟩
  · intro e he
    simp [he]
  · intro hdn e he
    simp [hdn, he]
  · intro hdn hcn
    simp [hdn, hcn]
  · cases hde : d.err with
    | some e => simp
    | none =>
      cases hce : c.err with
      | some e => simp
      | none => simp

/-- Witness of C17 on a schema with one item, no index, and a service that
accepts every call: the requests are CreateTable, then PutItem. -/
theorem Import_runs_three_steps_witness :
    Import ⟨fun _ => .ok [], fun _ => .ok (itemsSchema [[("a", .bool true)]])⟩
      (fun _ _ => none) (fun _ _ => "1.5") "schema.json" [] =
      (none,
        [.CreateTable ⟨some [], none, some [], none, some ⟨some 1, some 1⟩, some "t"⟩,
          .PutItem ⟨some [("a", .mk none (some true) none none none none none none
            none none)], some "t"⟩]) :=
  (Import_runs_three_steps
    ⟨fun _ => .ok [], fun _ => .ok (itemsSchema [[("a", .bool true)]])⟩
    (fun _ _ => none) (fun _ _ => "1.5") "schema.json" [] []
    (itemsSchema [[("a", .bool true)]]) rfl rfl (by decide)).2.2.1 rfl rfl

/-- C18 (as the code behaves): the block LOCAL INDEXES ranges over
`schema.GlobalIndexes`.  A schema with one local index "byDate" and no global
index sends a CreateTable request with an empty list of local secondary
indexes; with one global index "byOwner" besides, the request carries one local
secondary index, named "byOwner" and with the keys and projection of that
global index. -/
theorem createTable_local_indexes_from_global (svc : Service) :
    (createTable svc (indexesSchema []
        [⟨"byDate", ⟨"ALL", none⟩, [⟨"date", "S", true, false, true⟩]⟩]) []).calls =
      [.CreateTable ⟨some [⟨some "id", some "S"⟩], none,
        some [⟨some "id", some "HASH"⟩], some [], some ⟨some 1, some 1⟩,
        some "t"⟩] ∧
    (createTable svc (indexesSchema
        [⟨"byOwner", ⟨5, 5⟩, ⟨"KEYS_ONLY", none⟩,
          [⟨"owner", "S", true, true, false⟩]⟩]
        [⟨"byDate", ⟨"ALL", none⟩, [⟨"date", "S", true, false, true⟩]⟩]) []).calls =
      [.CreateTable ⟨some [⟨some "id", some "S"⟩],
        some [⟨some "byOwner", some [⟨some "owner", some "HASH"⟩],
          some ⟨none, some "KEYS_ONLY"⟩, some ⟨some 5, some 5⟩⟩],
        some [⟨some "id", some "HASH"⟩],
        some [⟨some "byOwner", some [⟨some "owner", some "HASH"⟩],
          some ⟨none, some "KEYS_ONLY"⟩⟩],
        some ⟨some 1, some 1⟩, some "t"⟩] :=
  ⟨rfl, rfl⟩

/-- C20: `deleteTableIfExists` sends nothing and returns nil when
`DropIfExists` is false; when it is true and DescribeTable answers with an
error, it sends only that DescribeTable and returns nil; when DescribeTable
succeeds it sends DeleteTable and returns its error.  So a DeleteTable is among
the requests it sends only when `DropIfExists` is true and DescribeTable
succeeded. -/
theorem deleteTableIfExists_guards_delete (svc : Service) (schema : jsonSchema)
    (calls : List Call) :
    (schema.DropIfExists = false →
      deleteTableIfExists svc schema calls = ⟨none, schema, calls⟩) ∧
    (∀ e, schema.DropIfExists = true →
      svc calls (.DescribeTable schema.Table) = some e →
      deleteTableIfExists svc schema calls =
        ⟨none, schema, calls ++ [.DescribeTable schema.Table]⟩) ∧
    (schema.DropIfExists = true →
      svc calls (.DescribeTable schema.Table) = none →
      deleteTableIfExists svc schema calls =
        ⟨svc (calls ++ [.DescribeTable schema.Table]) (.DeleteTable schema.Table),
          schema,
          calls ++ [.DescribeTable schema.Table] ++ [.DeleteTable schema.Table]⟩) ∧
    (∀ t, Call.DeleteTable t ∈
        (deleteTableIfExists svc schema calls).calls.drop calls.length →
      schema.DropIfExists = true ∧
        svc calls (.DescribeTable schema.Table) = none) := by
  refine ⟨?_, ?_, ?_, ?_⟩
  · intro h
    simp [deleteTableIfExists, h]
  · intro e h he
    simp [deleteTableIfExists, h, he]
  · intro h he
    simp [deleteTableIfExists, h, he]
  · intro t hmem
    cases hd : schema.DropIfExists with
    | false => simp [deleteTableIfExists, hd] at hmem
    | true =>
      cases hs : svc calls (.DescribeTable schema.Table) with
      | some e => simp [deleteTableIfExists, hd, hs] at hmem
      | none => exact ⟨rfl, rfl⟩

/-- Witness of C20: a schema that does not drop; a schema that drops while
DescribeTable fails; a schema that drops while every call succeeds. -/
theorem deleteTableIfExists_guards_delete_witness :
    deleteTableIfExists (fun _ _ => none) (itemsSchema []) [] =
        ⟨none, itemsSchema [], []⟩ ∧
      deleteTableIfExists (fun _ _ => some "ResourceNotFoundException")
          ⟨"t", true, ⟨1, 1⟩, [], [], [], [], none⟩ [] =
        ⟨none, ⟨"t", true, ⟨1, 1⟩, [], [], [], [], none⟩, [.DescribeTable "t"]⟩ ∧
      deleteTableIfExists (fun _ _ => none)
          ⟨"t", true, ⟨1, 1⟩, [], [], [], [], none⟩ [] =
        ⟨none, ⟨"t", true, ⟨1, 1⟩, [], [], [], [], none⟩,
          [.DescribeTable "t", .DeleteTable "t"]⟩ :=
  ⟨(deleteTableIfExists_guards_delete (fun _ _ => none) (itemsSchema []) []).1 rfl,
    (deleteTableIfExists_guards_delete (fun _ _ => some "ResourceNotFoundException")
      ⟨"t", true, ⟨1, 1⟩, [], [], [], [], none⟩ []).2.1
      "ResourceNotFoundException" rfl rfl,
    (deleteTableIfExists_guards_delete (fun _ _ => none)
      ⟨"t", true, ⟨1, 1⟩, [], [], [], [], none⟩ []).2.2.1 rfl rfl⟩

end Migrations
